import Mathlib

/-!
# GSLAM `Undistorter` (src/cpp/style/徐磊/Undistorter.h)

A shallow embedding of `UndistorterImpl`: the remap-table builder
`prepareReMap` and the two resamplers `undistortFast` and `undistort`.

Modelling conventions

* `double` values are exact rationals (`ℚ`). Storing one in a `float` array rounds it
  (`toFloat`); arithmetic on the stored values is exact.
* The `int` values that `prepareReMap` stores in `remapFast` and `remapIdx` wrap to 32 bits
  (`toInt32`). Sizes and loop counters are natural numbers.
* A pointer is `Option (List _)`: `none` is `NULL`, `some l` a live array.
* An out-of-bounds access, a `NULL` dereference and an unrepresentable
  float-to-`uchar` conversion are undefined behaviour: the resamplers return
  `Except.error` with the `Fault` there.
* The resamplers are given twice: as functions of the handle (`undistortFast`, `undistort`)
  and as code with the handle as state (`undistortFastBody`, `undistortBody`);
  `undistortFastBody_reads` and `undistortBody_reads` relate the two.
* `Camera.h` and `GImage.h` are not part of the sources; the camera and the image
  buffer are modelled by the capabilities the code uses.
-/

namespace GSLAM

/-! ## External collaborators -/

/-- Image-plane point (`Point2d`). -/
structure Point2d where
  x : ℚ
  y : ℚ
deriving DecidableEq, Repr

/-- World point (`Point3d`). -/
structure Point3d where
  x : ℚ
  y : ℚ
  z : ℚ
deriving DecidableEq, Repr

/-- Modelled from the spec: `Camera` (Camera.h is absent). A camera reports its pixel
dimensions and a validity flag and converts between image and world points. -/
structure Camera where
  w : Nat
  h : Nat
  ok : Bool
  unproject : Point2d → Point3d
  project : Point3d → Point2d

namespace Camera

def width (c : Camera) : Nat := c.w
def height (c : Camera) : Nat := c.h
def isValid (c : Camera) : Bool := c.ok
def UnProject (c : Camera) (p : Point2d) : Point3d := c.unproject p
def Project (c : Camera) (p : Point3d) : Point2d := c.project p

end Camera

/-- Modelled from the spec: `GImage` (GImage.h is absent). A typed 2D pixel container:
`channels` and `elemSize` (bytes per pixel) stand for the pixel type, `data` is the
raw byte storage. -/
structure GImage where
  rows : Nat
  cols : Nat
  channels : Nat
  elemSize : Nat
  data : List Nat
deriving DecidableEq, Repr

/-- Modelled from the spec: the constructor `GImage(rows, cols, type)`; a fresh image
holds the default (zero) value in every byte. -/
def GImage.create (rows cols channels elemSize : Nat) : GImage :=
  { rows := rows, cols := cols, channels := channels, elemSize := elemSize,
    data := List.replicate (rows * cols * elemSize) 0 }

/-- An image whose storage has the size its dimensions and pixel type announce. -/
def GImage.wellFormed (g : GImage) : Prop :=
  g.data.length = g.rows * g.cols * g.elemSize ∧ ∀ b ∈ g.data, b < 256

/-! ## Numeric conversions -/

/-- Conversion of a floating value to `int`: truncation toward zero. -/
def castInt (q : ℚ) : Int := if 0 ≤ q then ⌊q⌋ else ⌈q⌉

/-- Conversion of a floating value to `uchar`: truncation toward zero; undefined when the
truncated value is not representable. -/
def castUchar (q : ℚ) : Option Nat :=
  let t := castInt q
  if 0 ≤ t ∧ t < 256 then some t.toNat else none

/-- The power `2 ^ e` for an integer exponent. -/
def pow2 (e : Int) : ℚ :=
  if 0 ≤ e then ((2 ^ e.toNat : Nat) : ℚ) else 1 / ((2 ^ (-e).toNat : Nat) : ℚ)

/-- Number of binary digits of `n`, computed with `fuel` halvings. -/
def bitLen : Nat → Nat → Nat
  | 0, _ => 0
  | fuel + 1, n => if n = 0 then 0 else bitLen fuel (n / 2) + 1

/-- The binary exponent of a non-zero value: the `e` with `2 ^ e ≤ |q| < 2 ^ (e + 1)`. -/
def binExp (q : ℚ) : Int :=
  let e0 : Int := (bitLen q.num.natAbs q.num.natAbs : Int) - (bitLen q.den q.den : Int)
  if pow2 e0 ≤ |q| then e0 else e0 - 1

/-- Rounding to the nearest integer, ties to the even one. -/
def roundEven (m : ℚ) : Int :=
  if m - ⌊m⌋ < 1 / 2 then ⌊m⌋
  else if 1 / 2 < m - ⌊m⌋ then ⌊m⌋ + 1
  else if ⌊m⌋ % 2 = 0 then ⌊m⌋ else ⌊m⌋ + 1

/-- Narrowing of a `double` to `float` (IEEE binary32, round to nearest, ties to even): the
value is rounded to a multiple of `2 ^ (e - 23)`, of `2 ^ (-149)` in the subnormal range.
Overflow to infinity (magnitudes from `2 ^ 128` on) is not modelled. -/
def toFloat (q : ℚ) : ℚ :=
  if q = 0 then 0
  else (roundEven (q / pow2 (max (binExp q - 23) (-149))) : ℚ) * pow2 (max (binExp q - 23) (-149))

/-- A mathematical integer as a 32-bit `int` holds it (two's complement wrap-around). -/
def toInt32 (z : Int) : Int := (z + 2 ^ 31) % 2 ^ 32 - 2 ^ 31

/-! ## The handle -/

/-- State of `UndistorterImpl`. -/
structure UndistorterImpl where
  camera_in : Camera
  camera_out : Camera
  remapX : Option (List ℚ)
  remapY : Option (List ℚ)
  remapFast : Option (List Int)
  remapIdx : Option (List Int)
  remapCoef : Option (List ℚ)
  valid : Bool

/-- The five arrays while `prepareReMap` fills them. -/
structure Tables where
  remapX : List ℚ
  remapY : List ℚ
  remapFast : List Int
  remapIdx : List Int
  remapCoef : List ℚ
deriving DecidableEq, Repr

/-- Indeterminate contents of the arrays returned by `new[]`. -/
structure Uninit where
  fX : Nat → ℚ
  fY : Nat → ℚ
  fFast : Nat → Int
  fIdx : Nat → Int
  fCoef : Nat → ℚ

/-- The arrays as allocated at lines 143-148, before the loop writes them. -/
def allocTables (u : Uninit) (size : Nat) : Tables :=
  { remapX := (List.range size).map u.fX
    remapY := (List.range size).map u.fY
    remapFast := (List.range size).map u.fFast
    remapIdx := (List.range (size * 4)).map u.fIdx
    remapCoef := (List.range (size * 4)).map u.fCoef }

/-- Body of the loop of `prepareReMap` (lines 154-207) for output pixel `(x, y)`.
`im_pose` is a `Point2d` of doubles; storing it in the `float` arrays narrows it (lines
178-179), and lines 186-206 work on the narrowed values read back from the arrays. The `int`
results of lines 181 and 198-201 are kept as a 32-bit `int` holds them. The float arithmetic
of lines 194-206 (fractional parts, products, sums) is exact. -/
def remapPixel (cin cout : Camera) (x y : Nat) (t : Tables) : Tables :=
  let w_in := cin.width
  let h_in := cin.height
  let xend := cout.width
  let i := y * xend + x
  let world_pose := cout.UnProject ⟨x, y⟩
  let im_pose := cin.Project world_pose
  if im_pose.x < 0 ∨ im_pose.y < 0 ∨ im_pose.x ≥ w_in ∨ im_pose.y ≥ h_in then
    { remapX := t.remapX.set i (-1)
      remapY := t.remapY.set i (-1)
      remapFast := t.remapFast.set i (-1)
      remapIdx :=
        (((t.remapIdx.set (i * 4 + 0) 0).set (i * 4 + 1) 0).set (i * 4 + 2) 0).set (i * 4 + 3) 0
      remapCoef :=
        (((t.remapCoef.set (i * 4 + 0) 0).set (i * 4 + 1) 0).set (i * 4 + 2) 0).set (i * 4 + 3) 0 }
  else
    let t1 : Tables :=
      { t with
        remapX := t.remapX.set i (toFloat im_pose.x)
        remapY := t.remapY.set i (toFloat im_pose.y)
        remapFast :=
          t.remapFast.set i (toInt32 (castInt im_pose.x + w_in * castInt im_pose.y)) }
    let xx := t1.remapX.getD i 0
    let yy := t1.remapY.getD i 0
    if xx < 0 then t1
    else
      let xxi := castInt xx
      let yyi := castInt yy
      let xx := xx - xxi
      let yy := yy - yyi
      let xxyy := xx * yy
      { t1 with
        remapIdx :=
          (((t1.remapIdx.set (i * 4 + 0) (toInt32 (yyi * w_in + xxi))).set (i * 4 + 1)
            (toInt32 (yyi * w_in + xxi + 1))).set (i * 4 + 2)
            (toInt32 ((yyi + 1) * w_in + xxi))).set (i * 4 + 3)
            (toInt32 ((yyi + 1) * w_in + xxi + 1))
        remapCoef :=
          (((t1.remapCoef.set (i * 4 + 0) (1 - xx - yy + xxyy)).set (i * 4 + 1)
            (xx - xxyy)).set (i * 4 + 2) (yy - xxyy)).set (i * 4 + 3) xxyy }

/-- The two nested loops of `prepareReMap` (lines 152-208). -/
def remapLoop (cin cout : Camera) (t : Tables) : Tables :=
  (List.range cout.height).foldl
    (fun t y => (List.range cout.width).foldl (fun t x => remapPixel cin cout x y t) t) t

/-- Embedding of `UndistorterImpl::prepareReMap`: the returned flag and the state after the call.
`u` is the indeterminate content of the freshly allocated arrays. -/
def prepareReMap (s : UndistorterImpl) (u : Uninit) : Bool × UndistorterImpl :=
  if !(s.camera_in.isValid && s.camera_out.isValid) then
    (false, { s with valid := false })
  else
    let size := s.camera_out.width * s.camera_out.height
    let t := remapLoop s.camera_in s.camera_out (allocTables u size)
    (true,
      { s with
        remapX := some t.remapX
        remapY := some t.remapY
        remapFast := some t.remapFast
        remapIdx := some t.remapIdx
        remapCoef := some t.remapCoef
        valid := true })

/-- Embedding of the constructor `UndistorterImpl(in, out)` (lines 63-73). -/
def UndistorterImpl.new (cin cout : Camera) (u : Uninit) : UndistorterImpl :=
  (prepareReMap
    { camera_in := cin, camera_out := cout, remapX := none, remapY := none, remapFast := none,
      remapIdx := none, remapCoef := none, valid := true } u).2

/-! ## Resampling -/

/-- Undefined behaviour a resampler can run into. -/
inductive Fault where
  | nullTable
  | tableRead (i : Nat)
  | inputRead (k : Int)
  | outputWrite (k : Nat)
  | conversion
deriving DecidableEq, Repr

/-- Read `p[i]` of a table pointer. -/
def readTable {α : Type} (p : Option (List α)) (i : Nat) : Except Fault α :=
  match p with
  | none => .error .nullTable
  | some l =>
    match l[i]? with
    | some v => .ok v
    | none => .error (.tableRead i)

/-- Read `p_img[k]` where `p_img` points to elements of `n` bytes (`Byte<n>*`, or `memcpy` of
`n` bytes from `p_img + n * k`). -/
def readBlock (n : Nat) (buf : List Nat) (k : Int) : Except Fault (List Nat) :=
  if 0 ≤ k ∧ (k.toNat + 1) * n ≤ buf.length then .ok ((buf.drop (k.toNat * n)).take n)
  else .error (.inputRead k)

/-- Write `p_out[i] = v` where `p_out` points to elements of `n` bytes. -/
def writeBlock (n : Nat) (buf : List Nat) (i : Nat) (v : List Nat) : Except Fault (List Nat) :=
  if (i + 1) * n ≤ buf.length then .ok (buf.take (i * n) ++ v ++ buf.drop ((i + 1) * n))
  else .error (.outputWrite i)

/-- Read `p_img[k]` of a `uchar*`. -/
def readByte (buf : List Nat) (k : Int) : Except Fault Nat :=
  if 0 ≤ k then
    match buf[k.toNat]? with
    | some v => .ok v
    | none => .error (.inputRead k)
  else .error (.inputRead k)

/-- Write `p_out[k] = v` of a `uchar*`. -/
def writeByte (buf : List Nat) (k : Nat) (v : Nat) : Except Fault (List Nat) :=
  if k < buf.length then .ok (buf.set k v) else .error (.outputWrite k)

/-- Store a floating value into a `uchar`. -/
def toUchar (q : ℚ) : Except Fault Nat :=
  match castUchar q with
  | some v => .ok v
  | none => .error .conversion

/-- Embedding of `UndistorterImpl::undistortFast`: the returned flag and `result`. -/
def undistortFast (s : UndistorterImpl) (image : GImage) : Except Fault (Bool × GImage) :=
  if !s.valid then .ok (false, image)
  else
    let width_out := s.camera_out.width
    let height_out := s.camera_out.height
    if image.rows ≠ s.camera_in.height ∨ image.cols ≠ s.camera_in.width then .ok (false, image)
    else
      let wh := width_out * height_out
      let c := image.channels
      let result := GImage.create height_out width_out image.channels image.elemSize
      if c = 1 then do
        let data ← (List.range wh).foldlM (fun p_out i => do
          let f ← readTable s.remapFast i
          if f > 0 then do
            let px ← readBlock 1 image.data f
            writeBlock 1 p_out i px
          else pure p_out) result.data
        pure (true, { result with data := data })
      else if c = 3 then do
        let data ← (List.range wh).foldlM (fun p_out i => do
          let f ← readTable s.remapFast i
          let px ← readBlock 3 image.data f
          writeBlock 3 p_out i px) result.data
        pure (true, { result with data := data })
      else do
        let eleSize := image.elemSize
        let data ← (List.range wh).foldlM (fun p_out i => do
          let xx ← readTable s.remapX i
          if xx > 0 then do
            let f ← readTable s.remapFast i
            let px ← readBlock eleSize image.data f
            writeBlock eleSize p_out i px
          else pure p_out) result.data
        pure (true, { result with data := data })

/-- The interpolated value `Σ p_img[pIdx[k] * c + j] * pCoef[k]` of lines 304-305 and 322-325,
with `pIdx = remapIdx + 4 * i` and `pCoef = remapCoef + 4 * i`. -/
def interp (s : UndistorterImpl) (p_img : List Nat) (i c j : Nat) : Except Fault ℚ := do
  let i0 ← readTable s.remapIdx (4 * i + 0)
  let v0 ← readByte p_img (i0 * c + j)
  let c0 ← readTable s.remapCoef (4 * i + 0)
  let i1 ← readTable s.remapIdx (4 * i + 1)
  let v1 ← readByte p_img (i1 * c + j)
  let c1 ← readTable s.remapCoef (4 * i + 1)
  let i2 ← readTable s.remapIdx (4 * i + 2)
  let v2 ← readByte p_img (i2 * c + j)
  let c2 ← readTable s.remapCoef (4 * i + 2)
  let i3 ← readTable s.remapIdx (4 * i + 3)
  let v3 ← readByte p_img (i3 * c + j)
  let c3 ← readTable s.remapCoef (4 * i + 3)
  pure ((v0 : ℚ) * c0 + (v1 : ℚ) * c1 + (v2 : ℚ) * c2 + (v3 : ℚ) * c3)

/-- Embedding of `UndistorterImpl::undistort`: the returned flag and `result`. -/
def undistort (s : UndistorterImpl) (image : GImage) : Except Fault (Bool × GImage) :=
  if !s.valid then .ok (false, image)
  else
    let width_out := s.camera_out.width
    let height_out := s.camera_out.height
    if image.rows ≠ s.camera_in.height ∨ image.cols ≠ s.camera_in.width then .ok (false, image)
    else
      let wh := width_out * height_out
      let c := image.channels
      let result := GImage.create height_out width_out image.channels image.elemSize
      if c = 1 then do
        let data ← (List.range wh).foldlM (fun p_out i => do
          let xx ← readTable s.remapX i
          if xx < 0 then writeByte p_out i 0
          else do
            let v ← interp s image.data i 1 0
            let b ← toUchar v
            writeByte p_out i b) result.data
        pure (true, { result with data := data })
      else do
        let data ← (List.range wh).foldlM (fun p_out i => do
          let xx ← readTable s.remapX i
          if xx > 0 then
            (List.range c).foldlM (fun p_out j => do
              let v ← interp s image.data i c j
              let b ← toUchar v
              writeByte p_out (i * 3 + j) b) p_out
          else pure p_out) result.data
        pure (true, { result with data := data })

/-! ## Concrete configurations used in the examples -/

/-- A pinhole camera of `w × h` pixels with focal lengths `fx, fy` and principal point
`(cx, cy)`; it is valid when its size and focal lengths are non-zero. -/
def pinhole (w h : Nat) (fx fy cx cy : ℚ) : Camera :=
  { w := w, h := h, ok := decide (0 < w ∧ 0 < h ∧ fx ≠ 0 ∧ fy ≠ 0)
    unproject := fun p => ⟨(p.x - cx) / fx, (p.y - cy) / fy, 1⟩
    project := fun p => ⟨fx * p.x / p.z + cx, fy * p.y / p.z + cy⟩ }

/-- The identity pinhole camera of `w × h` pixels. -/
def idCam (w h : Nat) : Camera := pinhole w h 1 1 0 0

/-- Fresh arrays that happen to hold zeros. -/
def zeroInit : Uninit := ⟨fun _ => 0, fun _ => 0, fun _ => 0, fun _ => 0, fun _ => 0⟩

/-- Fresh arrays that happen to hold other values. -/
def junkInit : Uninit := ⟨fun i => i + 5, fun _ => -3, fun i => 7 - i, fun _ => 99, fun _ => 1 / 2⟩

instance instDecidableEqExcept {ε α : Type} [DecidableEq ε] [DecidableEq α] :
    DecidableEq (Except ε α) := fun a b =>
  match a, b with
  | .ok x, .ok y =>
    if h : x = y then isTrue (by rw [h]) else isFalse (fun e => h (by cases e; rfl))
  | .error x, .error y =>
    if h : x = y then isTrue (by rw [h]) else isFalse (fun e => h (by cases e; rfl))
  | .ok _, .error _ => isFalse (fun e => by cases e)
  | .error _, .ok _ => isFalse (fun e => by cases e)

/-- A 1 × 1 output camera looking at the top-left pixel of a 2 × 2 input camera. -/
def cornerHandle : UndistorterImpl := UndistorterImpl.new (idCam 2 2) (idCam 1 1) zeroInit

/-- Identical 2 × 2 pinhole cameras. -/
def identityHandle2 : UndistorterImpl := UndistorterImpl.new (idCam 2 2) (idCam 2 2) zeroInit

/-- Identical 4 × 4 pinhole cameras. -/
def identityHandle4 : UndistorterImpl := UndistorterImpl.new (idCam 4 4) (idCam 4 4) zeroInit

/-- A 1 × 1 output camera whose only pixel maps to the source point `(-1/2, 3)` of a 4 × 4
input camera. -/
def offImageHandle : UndistorterImpl :=
  UndistorterImpl.new (pinhole 4 4 1 1 (-1 / 2) 3) (idCam 1 1) zeroInit

/-- A 2 × 1 output camera whose pixels map to the source points `(1/2, 0)` and `(3/2, 0)` of a
3 × 2 input camera. -/
def halfShiftHandle : UndistorterImpl :=
  UndistorterImpl.new (pinhole 3 2 1 1 (1 / 2) 0) (idCam 2 1) zeroInit

/-- A handle that holds a table from an earlier build and whose input camera has since become
invalid (zero width). -/
def staleHandle : UndistorterImpl :=
  { identityHandle2 with camera_in := pinhole 0 2 1 1 0 0 }

/-- A handle on identical 2 × 2 cameras that holds arbitrary arrays. -/
def scribbledHandle : UndistorterImpl :=
  { identityHandle2 with
    remapX := some [5, 5], remapY := none, remapFast := some [], remapIdx := some [1, 2, 3],
    remapCoef := some [1 / 3], valid := false }

/-! ## What `prepareReMap` stores for one output pixel -/

/-- The source point `camera_in.Project(camera_out.UnProject(Point2d(x, y)))`. -/
def srcPoint (cin cout : Camera) (x y : Nat) : Point2d :=
  cin.Project (cout.UnProject ⟨x, y⟩)

/-- The test of lines 159-160: the source point is outside the input image. -/
def outside (cin : Camera) (p : Point2d) : Prop :=
  p.x < 0 ∨ p.y < 0 ∨ p.x ≥ cin.width ∨ p.y ≥ cin.height

instance instDecidableOutside (cin : Camera) (p : Point2d) : Decidable (outside cin p) :=
  inferInstanceAs (Decidable (p.x < 0 ∨ p.y < 0 ∨ p.x ≥ cin.width ∨ p.y ≥ cin.height))

/-- Value stored in `remapX` for pixel `(x, y)`. -/
def pixX (cin cout : Camera) (x y : Nat) : ℚ :=
  if outside cin (srcPoint cin cout x y) then -1 else toFloat (srcPoint cin cout x y).x

/-- Value stored in `remapY` for pixel `(x, y)`. -/
def pixY (cin cout : Camera) (x y : Nat) : ℚ :=
  if outside cin (srcPoint cin cout x y) then -1 else toFloat (srcPoint cin cout x y).y

/-- Value stored in `remapFast` for pixel `(x, y)`. -/
def pixFast (cin cout : Camera) (x y : Nat) : Int :=
  if outside cin (srcPoint cin cout x y) then -1
  else
    toInt32 (castInt (srcPoint cin cout x y).x + cin.width * castInt (srcPoint cin cout x y).y)

/-- Value stored in slot `k` of the four `remapIdx` entries of pixel `(x, y)`. -/
def pixIdx (cin cout : Camera) (x y k : Nat) : Int :=
  let p := srcPoint cin cout x y
  if outside cin p then 0
  else
    let xxi := castInt (toFloat p.x)
    let yyi := castInt (toFloat p.y)
    match k with
    | 0 => toInt32 (yyi * cin.width + xxi)
    | 1 => toInt32 (yyi * cin.width + xxi + 1)
    | 2 => toInt32 ((yyi + 1) * cin.width + xxi)
    | _ => toInt32 ((yyi + 1) * cin.width + xxi + 1)

/-- Value stored in slot `k` of the four `remapCoef` entries of pixel `(x, y)`. -/
def pixCoef (cin cout : Camera) (x y k : Nat) : ℚ :=
  let p := srcPoint cin cout x y
  if outside cin p then 0
  else
    let xx := toFloat p.x - castInt (toFloat p.x)
    let yy := toFloat p.y - castInt (toFloat p.y)
    match k with
    | 0 => 1 - xx - yy + xx * yy
    | 1 => xx - xx * yy
    | 2 => yy - xx * yy
    | _ => xx * yy

/-- Four consecutive writes `p[i * 4 + 0..3]`. -/
def set4 {α : Type} (l : List α) (i : Nat) (a b c d : α) : List α :=
  (((l.set (i * 4 + 0) a).set (i * 4 + 1) b).set (i * 4 + 2) c).set (i * 4 + 3) d

/-! ## The table after the loop -/

/-- The first `k` cells of `l` hold the values `f 0 .. f (k - 1)`. -/
def Filled {α : Type} (l : List α) (f : Nat → α) (k : Nat) : Prop :=
  ∀ i, i < k → l[i]? = some (f i)

/-- Entry `i` of `remapX` once the loop has run. -/
def entX (cin cout : Camera) (i : Nat) : ℚ := pixX cin cout (i % cout.width) (i / cout.width)

/-- Entry `i` of `remapY` once the loop has run. -/
def entY (cin cout : Camera) (i : Nat) : ℚ := pixY cin cout (i % cout.width) (i / cout.width)

/-- Entry `i` of `remapFast` once the loop has run. -/
def entFast (cin cout : Camera) (i : Nat) : Int :=
  pixFast cin cout (i % cout.width) (i / cout.width)

/-- Entry `j` of `remapIdx` once the loop has run. -/
def entIdx (cin cout : Camera) (j : Nat) : Int :=
  pixIdx cin cout ((j / 4) % cout.width) ((j / 4) / cout.width) (j % 4)

/-- Entry `j` of `remapCoef` once the loop has run. -/
def entCoef (cin cout : Camera) (j : Nat) : ℚ :=
  pixCoef cin cout ((j / 4) % cout.width) ((j / 4) / cout.width) (j % 4)

/-- The table `prepareReMap` builds, as a function of the camera pair. -/
def builtTables (cin cout : Camera) : Tables :=
  { remapX := (List.range (cout.width * cout.height)).map (entX cin cout)
    remapY := (List.range (cout.width * cout.height)).map (entY cin cout)
    remapFast := (List.range (cout.width * cout.height)).map (entFast cin cout)
    remapIdx := (List.range (cout.width * cout.height * 4)).map (entIdx cin cout)
    remapCoef := (List.range (cout.width * cout.height * 4)).map (entCoef cin cout) }

/-- Loop invariant of `prepareReMap`: the arrays keep their allocated sizes and the cells of
the first `k` output pixels are final. -/
structure LoopInv (cin cout : Camera) (size k : Nat) (t : Tables) : Prop where
  lenX : t.remapX.length = size
  lenY : t.remapY.length = size
  lenFast : t.remapFast.length = size
  lenIdx : t.remapIdx.length = size * 4
  lenCoef : t.remapCoef.length = size * 4
  fillX : Filled t.remapX (entX cin cout) k
  fillY : Filled t.remapY (entY cin cout) k
  fillFast : Filled t.remapFast (entFast cin cout) k
  fillIdx : Filled t.remapIdx (entIdx cin cout) (k * 4)
  fillCoef : Filled t.remapCoef (entCoef cin cout) (k * 4)

/-! ## The handle as a state machine -/

/-- The handle holds the five arrays `T` (none of the pointers is `NULL`). -/
def HasTables (s : UndistorterImpl) (T : Tables) : Prop :=
  s.remapX = some T.remapX ∧ s.remapY = some T.remapY ∧ s.remapFast = some T.remapFast ∧
    s.remapIdx = some T.remapIdx ∧ s.remapCoef = some T.remapCoef

/-- Code of a member function of `UndistorterImpl`: it can read and assign the members (the
state) and can run into undefined behaviour (the fault), which ends the call. -/
abbrev HandleM := ExceptT Fault (StateM UndistorterImpl)

/-- Read of a member. -/
def member {α : Type} (f : UndistorterImpl → α) : HandleM α := do
  let s ← get
  pure (f s)

/-- An access through a pointer: to a cell of a table, of the input image or of the buffer of
`result`. -/
def access {α : Type} (r : Except Fault α) : HandleM α :=
  match r with
  | .ok v => pure v
  | .error e => throw e

/-- Outcome of a member function started on the handle `s`, and the handle it leaves behind.
For a call that runs into a fault this is the handle at the faulting access. -/
def runOn {α : Type} (m : HandleM α) (s : UndistorterImpl) :
    Except Fault α × UndistorterImpl :=
  m.run.run s

/-- Body of `UndistorterImpl::undistortFast` (lines 214-265), statement by statement, with the
handle as state. -/
def undistortFastBody (image : GImage) : HandleM (Bool × GImage) := do
  let valid ← member (·.valid)
  if !valid then pure (false, image)
  else do
    let width_out ← member (·.camera_out.width)
    let height_out ← member (·.camera_out.height)
    let height_in ← member (·.camera_in.height)
    let width_in ← member (·.camera_in.width)
    if image.rows ≠ height_in ∨ image.cols ≠ width_in then pure (false, image)
    else do
      let wh := width_out * height_out
      let c := image.channels
      let result := GImage.create height_out width_out image.channels image.elemSize
      if c = 1 then do
        let data ← (List.range wh).foldlM (fun p_out i => do
          let remapFast ← member (·.remapFast)
          let f ← access (readTable remapFast i)
          if f > 0 then do
            let px ← access (readBlock 1 image.data f)
            access (writeBlock 1 p_out i px)
          else pure p_out) result.data
        pure (true, { result with data := data })
      else if c = 3 then do
        let data ← (List.range wh).foldlM (fun p_out i => do
          let remapFast ← member (·.remapFast)
          let f ← access (readTable remapFast i)
          let px ← access (readBlock 3 image.data f)
          access (writeBlock 3 p_out i px)) result.data
        pure (true, { result with data := data })
      else do
        let eleSize := image.elemSize
        let data ← (List.range wh).foldlM (fun p_out i => do
          let remapX ← member (·.remapX)
          let xx ← access (readTable remapX i)
          if xx > 0 then do
            let remapFast ← member (·.remapFast)
            let f ← access (readTable remapFast i)
            let px ← access (readBlock eleSize image.data f)
            access (writeBlock eleSize p_out i px)
          else pure p_out) result.data
        pure (true, { result with data := data })

/-- The interpolated value of lines 304-305 and 322-325 read through the local pointers
`pIdx = remapIdx + 4 * i` and `pCoef = remapCoef + 4 * i`. -/
def interpBody (remapIdx : Option (List Int)) (remapCoef : Option (List ℚ)) (p_img : List Nat)
    (i c j : Nat) : HandleM ℚ := do
  let i0 ← access (readTable remapIdx (4 * i + 0))
  let v0 ← access (readByte p_img (i0 * c + j))
  let c0 ← access (readTable remapCoef (4 * i + 0))
  let i1 ← access (readTable remapIdx (4 * i + 1))
  let v1 ← access (readByte p_img (i1 * c + j))
  let c1 ← access (readTable remapCoef (4 * i + 1))
  let i2 ← access (readTable remapIdx (4 * i + 2))
  let v2 ← access (readByte p_img (i2 * c + j))
  let c2 ← access (readTable remapCoef (4 * i + 2))
  let i3 ← access (readTable remapIdx (4 * i + 3))
  let v3 ← access (readByte p_img (i3 * c + j))
  let c3 ← access (readTable remapCoef (4 * i + 3))
  pure ((v0 : ℚ) * c0 + (v1 : ℚ) * c1 + (v2 : ℚ) * c2 + (v3 : ℚ) * c3)

/-- Body of `UndistorterImpl::undistort` (lines 268-334), statement by statement, with the
handle as state. -/
def undistortBody (image : GImage) : HandleM (Bool × GImage) := do
  let valid ← member (·.valid)
  if !valid then pure (false, image)
  else do
    let width_out ← member (·.camera_out.width)
    let height_out ← member (·.camera_out.height)
    let height_in ← member (·.camera_in.height)
    let width_in ← member (·.camera_in.width)
    if image.rows ≠ height_in ∨ image.cols ≠ width_in then pure (false, image)
    else do
      let wh := width_out * height_out
      let c := image.channels
      let result := GImage.create height_out width_out image.channels image.elemSize
      if c = 1 then do
        let pIdx ← member (·.remapIdx)
        let pCoef ← member (·.remapCoef)
        let data ← (List.range wh).foldlM (fun p_out i => do
          let remapX ← member (·.remapX)
          let xx ← access (readTable remapX i)
          if xx < 0 then access (writeByte p_out i 0)
          else do
            let v ← interpBody pIdx pCoef image.data i 1 0
            let b ← access (toUchar v)
            access (writeByte p_out i b)) result.data
        pure (true, { result with data := data })
      else do
        let pIdx ← member (·.remapIdx)
        let pCoef ← member (·.remapCoef)
        let data ← (List.range wh).foldlM (fun p_out i => do
          let remapX ← member (·.remapX)
          let xx ← access (readTable remapX i)
          if xx > 0 then
            (List.range c).foldlM (fun p_out j => do
              let v ← interpBody pIdx pCoef image.data i c j
              let b ← access (toUchar v)
              access (writeByte p_out (i * 3 + j) b)) p_out
          else pure p_out) result.data
        pure (true, { result with data := data })

/-- The member function `m` has the outcome `f s` on every handle `s` and leaves the handle as
it found it. -/
def Reads {α : Type} (m : HandleM α) (f : UndistorterImpl → Except Fault α) : Prop :=
  ∀ s, runOn m s = (f s, s)

/-- A call of `undistortFast` that returns: the flag and `result`, and the handle after the
call. -/
def undistortFastStep (s : UndistorterImpl) (image : GImage) :
    Except Fault ((Bool × GImage) × UndistorterImpl) :=
  match runOn (undistortFastBody image) s with
  | (.ok r, s') => .ok (r, s')
  | (.error e, _) => .error e

/-- A call of `undistort` that returns: the flag and `result`, and the handle after the
call. -/
def undistortStep (s : UndistorterImpl) (image : GImage) :
    Except Fault ((Bool × GImage) × UndistorterImpl) :=
  match runOn (undistortBody image) s with
  | (.ok r, s') => .ok (r, s')
  | (.error e, _) => .error e

/-- States a handle can be in: built by the constructor, then changed by any sequence of
`prepareReMap`, `undistortFast` and `undistort` calls. -/
inductive Reachable : UndistorterImpl → Prop where
  | construct (cin cout : Camera) (u : Uninit) : Reachable (UndistorterImpl.new cin cout u)
  | rebuild {s : UndistorterImpl} (u : Uninit) : Reachable s → Reachable (prepareReMap s u).2
  | fast {s s' : UndistorterImpl} {image : GImage} {r : Bool × GImage} :
      Reachable s → undistortFastStep s image = .ok (r, s') → Reachable s'
  | accurate {s s' : UndistorterImpl} {image : GImage} {r : Bool × GImage} :
      Reachable s → undistortStep s image = .ok (r, s') → Reachable s'

/-- The members as the constructor initialises them (lines 64-71), before it calls
`prepareReMap`. -/
def blankHandle (cin cout : Camera) : UndistorterImpl :=
  { camera_in := cin, camera_out := cout, remapX := none, remapY := none, remapFast := none,
    remapIdx := none, remapCoef := none, valid := true }

/-- A 2 × 1 output camera whose pixel 0 maps to `(-1/2, 0)`, outside the 3 × 2 input, and whose
pixel 1 maps to `(1/2, 0)`. -/
def secondPixelHandle : UndistorterImpl :=
  UndistorterImpl.new (pinhole 3 2 1 1 (-1 / 2) 0) (idCam 2 1) zeroInit

/-- A handle constructed on identical 2 × 2 cameras and then rebuilt by `prepareReMap`. -/
def rebuiltHandle : UndistorterImpl :=
  (prepareReMap (UndistorterImpl.new (idCam 2 2) (idCam 2 2) zeroInit) junkInit).2

/-- A 1 × 1 output camera whose pixel maps to the source point `(2 - 2^-30, 0)` of a 4 × 2
input camera. -/
def nearTwoHandle : UndistorterImpl :=
  UndistorterImpl.new (pinhole 4 2 1 1 (2 - 1 / 2 ^ 30) 0) (idCam 1 1) zeroInit

/-- A 1 × 1 output camera whose pixel maps to the source point `(2 - 2^-30, 0)` of a 3 × 2
input camera. -/
def nearEdgeHandle : UndistorterImpl :=
  UndistorterImpl.new (pinhole 3 2 1 1 (2 - 1 / 2 ^ 30) 0) (idCam 1 1) zeroInit

/-- A 1 × 1 output camera whose pixel maps to the source point `(0, 2)` of an input camera of
`2^30 × 4` pixels. -/
def wideHandle : UndistorterImpl :=
  UndistorterImpl.new (pinhole (2 ^ 30) 4 1 1 0 2) (idCam 1 1) zeroInit

/-- A 1 × 1 output camera whose pixel maps to the source point `(0, 1)` of an input camera of
`2^30 × 4` pixels. -/
def wideRowHandle : UndistorterImpl :=
  UndistorterImpl.new (pinhole (2 ^ 30) 4 1 1 0 1) (idCam 1 1) zeroInit

/-- A 1 × 1 output camera whose pixel maps to the source point `(0, 32768)` of an input camera
of `65536 × 65536` pixels. -/
def squareHandle : UndistorterImpl :=
  UndistorterImpl.new (pinhole 65536 65536 1 1 0 32768) (idCam 1 1) zeroInit

/-! ## Facts about the numeric conversions -/

theorem pow2_pos (e : Int) : 0 < pow2 e := by
  unfold pow2
  split_ifs
  · positivity
  · apply one_div_pos.mpr
    positivity

theorem roundEven_nonneg {m : ℚ} (h : 0 ≤ m) : 0 ≤ roundEven m := by
  have hf : 0 ≤ ⌊m⌋ := Int.floor_nonneg.mpr h
  unfold roundEven
  split_ifs <;> omega

theorem toFloat_nonneg {q : ℚ} (h : 0 ≤ q) : 0 ≤ toFloat q := by
  unfold toFloat
  split_ifs
  · exact le_refl _
  · apply mul_nonneg _ (pow2_pos _).le
    exact_mod_cast roundEven_nonneg (div_nonneg h (pow2_pos _).le)

theorem toInt32_of_fits {z : Int} (h1 : -2 ^ 31 ≤ z) (h2 : z < 2 ^ 31) : toInt32 z = z := by
  unfold toInt32
  norm_num at h1 h2 ⊢
  omega

/-! ## The loop of `prepareReMap` fills every cell -/

/-- One iteration of the loop writes the eleven entries of its own pixel. -/
theorem remapPixel_eq (cin cout : Camera) (x y : Nat) (t : Tables)
    (hx : y * cout.width + x < t.remapX.length) (hy : y * cout.width + x < t.remapY.length) :
    remapPixel cin cout x y t =
      { remapX := t.remapX.set (y * cout.width + x) (pixX cin cout x y)
        remapY := t.remapY.set (y * cout.width + x) (pixY cin cout x y)
        remapFast := t.remapFast.set (y * cout.width + x) (pixFast cin cout x y)
        remapIdx := set4 t.remapIdx (y * cout.width + x) (pixIdx cin cout x y 0)
          (pixIdx cin cout x y 1) (pixIdx cin cout x y 2) (pixIdx cin cout x y 3)
        remapCoef := set4 t.remapCoef (y * cout.width + x) (pixCoef cin cout x y 0)
          (pixCoef cin cout x y 1) (pixCoef cin cout x y 2) (pixCoef cin cout x y 3) } := by
  by_cases ho : outside cin (srcPoint cin cout x y)
  · have ho' := ho
    simp only [outside, srcPoint] at ho'
    simp [remapPixel, pixX, pixY, pixFast, pixIdx, pixCoef, set4, ho, ho']
  · have ho' := ho
    simp only [outside, srcPoint, not_or, not_lt, ge_iff_le, not_le] at ho'
    obtain ⟨h1, h2, h3, h4⟩ := ho'
    have ho2 : ¬ outside cin (cin.Project (cout.UnProject ⟨x, y⟩)) := ho
    have hf : ¬ toFloat (cin.Project (cout.UnProject ⟨x, y⟩)).x < 0 :=
      not_lt.mpr (toFloat_nonneg h1)
    simp [remapPixel, pixX, pixY, pixFast, pixIdx, pixCoef, set4, ho2, srcPoint, not_lt.mpr h1,
      not_lt.mpr h2, not_le.mpr h3, not_le.mpr h4, hf,
      List.getD_eq_getElem?_getD, List.getElem?_set_self hx, List.getElem?_set_self hy]

theorem filled_set {α : Type} {l : List α} {f : Nat → α} {k : Nat} (h : Filled l f k)
    (hk : k < l.length) (a : α) (ha : a = f k) : Filled (l.set k a) f (k + 1) := by
  intro i hi
  by_cases hik : k = i
  · subst hik; rw [List.getElem?_set_self hk, ha]
  · rw [List.getElem?_set_ne hik]; exact h i (by omega)

theorem length_set4 {α : Type} (l : List α) (i : Nat) (a b c d : α) :
    (set4 l i a b c d).length = l.length := by
  simp [set4]

theorem filled_set4 {α : Type} {l : List α} {g : Nat → α} {k : Nat} (h : Filled l g (k * 4))
    (hk : k * 4 + 3 < l.length) (a b c d : α) (ha : a = g (k * 4 + 0)) (hb : b = g (k * 4 + 1))
    (hc : c = g (k * 4 + 2)) (hd : d = g (k * 4 + 3)) :
    Filled (GSLAM.set4 l k a b c d) g ((k + 1) * 4) := by
  have h1 := filled_set h (by omega) a ha
  have h2 := filled_set h1 (by simp; omega) b hb
  have h3 := filled_set h2 (by simp; omega) c hc
  have h4 := filled_set h3 (by simp; omega) d hd
  have e : (k + 1) * 4 = k * 4 + 0 + 1 + 1 + 1 + 1 := by omega
  rw [e]
  exact h4

theorem filled_eq_map {α : Type} {l : List α} {f : Nat → α} {n : Nat} (h : Filled l f n)
    (hl : l.length = n) : l = (List.range n).map f := by
  apply List.ext_getElem?
  intro i
  by_cases hi : i < n
  · rw [h i hi, List.getElem?_map, List.getElem?_range hi]; rfl
  · have h1 : l[i]? = none := List.getElem?_eq_none (by omega)
    have h2 : ((List.range n).map f)[i]? = none :=
      List.getElem?_eq_none (by simp; omega)
    rw [h1, h2]

theorem allocTables_inv (cin cout : Camera) (u : Uninit) (size : Nat) :
    LoopInv cin cout size 0 (allocTables u size) where
  lenX := by simp [allocTables]
  lenY := by simp [allocTables]
  lenFast := by simp [allocTables]
  lenIdx := by simp [allocTables]
  lenCoef := by simp [allocTables]
  fillX := fun _ hi => absurd hi (by omega)
  fillY := fun _ hi => absurd hi (by omega)
  fillFast := fun _ hi => absurd hi (by omega)
  fillIdx := fun _ hi => absurd hi (by omega)
  fillCoef := fun _ hi => absurd hi (by omega)

theorem index_decomp {w x y : Nat} (hx : x < w) :
    (y * w + x) % w = x ∧ (y * w + x) / w = y := by
  have hw : 0 < w := by omega
  constructor
  · rw [Nat.add_comm, Nat.add_mul_mod_self_right]; exact Nat.mod_eq_of_lt hx
  · rw [Nat.add_comm, Nat.add_mul_div_right _ _ hw, Nat.div_eq_of_lt hx]; omega

theorem remapPixel_inv {cin cout : Camera} {size x y : Nat} {t : Tables}
    (h : LoopInv cin cout size (y * cout.width + x) t) (hx : x < cout.width)
    (hs : y * cout.width + x < size) :
    LoopInv cin cout size (y * cout.width + x + 1) (remapPixel cin cout x y t) := by
  obtain ⟨e1, e2⟩ := @index_decomp cout.width x y hx
  have q0 : ∀ s, s < 4 → ((y * cout.width + x) * 4 + s) / 4 = y * cout.width + x ∧
      ((y * cout.width + x) * 4 + s) % 4 = s := by
    intro s hs4; omega
  rw [remapPixel_eq cin cout x y t (by rw [h.lenX]; exact hs) (by rw [h.lenY]; exact hs)]
  refine ⟨?_, ?_, ?_, ?_, ?_, ?_, ?_, ?_, ?_, ?_⟩
  · simp [h.lenX]
  · simp [h.lenY]
  · simp [h.lenFast]
  · simp [length_set4, h.lenIdx]
  · simp [length_set4, h.lenCoef]
  · exact filled_set h.fillX (by rw [h.lenX]; exact hs) _ (by simp [entX, e1, e2])
  · exact filled_set h.fillY (by rw [h.lenY]; exact hs) _ (by simp [entY, e1, e2])
  · exact filled_set h.fillFast (by rw [h.lenFast]; exact hs) _ (by simp [entFast, e1, e2])
  · exact filled_set4 h.fillIdx (by rw [h.lenIdx]; omega) _ _ _ _
      (by simp only [entIdx, (q0 0 (by omega)).1, (q0 0 (by omega)).2, e1, e2])
      (by simp only [entIdx, (q0 1 (by omega)).1, (q0 1 (by omega)).2, e1, e2])
      (by simp only [entIdx, (q0 2 (by omega)).1, (q0 2 (by omega)).2, e1, e2])
      (by simp only [entIdx, (q0 3 (by omega)).1, (q0 3 (by omega)).2, e1, e2])
  · exact filled_set4 h.fillCoef (by rw [h.lenCoef]; omega) _ _ _ _
      (by simp only [entCoef, (q0 0 (by omega)).1, (q0 0 (by omega)).2, e1, e2])
      (by simp only [entCoef, (q0 1 (by omega)).1, (q0 1 (by omega)).2, e1, e2])
      (by simp only [entCoef, (q0 2 (by omega)).1, (q0 2 (by omega)).2, e1, e2])
      (by simp only [entCoef, (q0 3 (by omega)).1, (q0 3 (by omega)).2, e1, e2])

/-- The inner loop over `x` finishes row `y`. -/
theorem rowLoop_inv {cin cout : Camera} {size y : Nat} (hrow : (y + 1) * cout.width ≤ size) :
    ∀ (n : Nat) (t : Tables), n ≤ cout.width → LoopInv cin cout size (y * cout.width) t →
      LoopInv cin cout size (y * cout.width + n)
        ((List.range n).foldl (fun t x => remapPixel cin cout x y t) t) := by
  intro n
  induction n with
  | zero => intro t _ h; simpa using h
  | succ n ih =>
    intro t hn h
    rw [List.range_succ, List.foldl_append]
    have h1 := ih t (by omega) h
    have hlt : y * cout.width + n < size := by
      have : (y + 1) * cout.width = y * cout.width + cout.width := by ring
      omega
    exact remapPixel_inv h1 (by omega) hlt

/-- The outer loop over `y` finishes the first `m` rows. -/
theorem remapRows_inv {cin cout : Camera} {size : Nat} :
    ∀ (m : Nat) (t : Tables), m * cout.width ≤ size → LoopInv cin cout size 0 t →
      LoopInv cin cout size (m * cout.width)
        ((List.range m).foldl
          (fun t y => (List.range cout.width).foldl (fun t x => remapPixel cin cout x y t) t) t) := by
  intro m
  induction m with
  | zero => intro t _ h; simpa using h
  | succ m ih =>
    intro t hm h
    rw [List.range_succ, List.foldl_append]
    have e : (m + 1) * cout.width = m * cout.width + cout.width := by ring
    have h1 := ih t (by omega) h
    have h2 := @rowLoop_inv cin cout size m hm cout.width _ (Nat.le_refl _) h1
    rw [e]
    simpa using h2

/-- The loop overwrites every cell: whatever the fresh arrays held, the table after the loop
is `builtTables`. -/
theorem remapLoop_alloc (cin cout : Camera) (u : Uninit) :
    remapLoop cin cout (allocTables u (cout.width * cout.height)) = builtTables cin cout := by
  have h := @remapRows_inv cin cout (cout.width * cout.height)
    cout.height (allocTables u (cout.width * cout.height)) (by rw [Nat.mul_comm])
    (allocTables_inv cin cout u _)
  have hk : cout.height * cout.width = cout.width * cout.height := Nat.mul_comm _ _
  rw [hk] at h
  have hl : remapLoop cin cout (allocTables u (cout.width * cout.height)) =
      (List.range cout.height).foldl
        (fun t y => (List.range cout.width).foldl (fun t x => remapPixel cin cout x y t) t)
        (allocTables u (cout.width * cout.height)) := rfl
  rw [hl]
  have rX := filled_eq_map h.fillX h.lenX
  have rY := filled_eq_map h.fillY h.lenY
  have rF := filled_eq_map h.fillFast h.lenFast
  have rI := filled_eq_map h.fillIdx h.lenIdx
  have rC := filled_eq_map h.fillCoef h.lenCoef
  generalize (List.range cout.height).foldl
        (fun t y => (List.range cout.width).foldl (fun t x => remapPixel cin cout x y t) t)
        (allocTables u (cout.width * cout.height)) = T at rX rY rF rI rC
  cases T
  simp only at rX rY rF rI rC
  simp only [builtTables, rX, rY, rF, rI, rC]

/-- State after a successful `prepareReMap`. -/
theorem prepareReMap_ok (s : UndistorterImpl) (u : Uninit)
    (hv : (s.camera_in.isValid && s.camera_out.isValid) = true) :
    prepareReMap s u = (true,
      { s with
        remapX := some (builtTables s.camera_in s.camera_out).remapX
        remapY := some (builtTables s.camera_in s.camera_out).remapY
        remapFast := some (builtTables s.camera_in s.camera_out).remapFast
        remapIdx := some (builtTables s.camera_in s.camera_out).remapIdx
        remapCoef := some (builtTables s.camera_in s.camera_out).remapCoef
        valid := true }) := by
  simp only [prepareReMap, hv, Bool.not_true, Bool.false_eq_true, if_false, remapLoop_alloc]

/-- State after a failed `prepareReMap`. -/
theorem prepareReMap_fail (s : UndistorterImpl) (u : Uninit)
    (hv : (s.camera_in.isValid && s.camera_out.isValid) = false) :
    prepareReMap s u = (false, { s with valid := false }) := by
  simp [prepareReMap, hv]

/-! ## Reading the built table -/

theorem prepareReMap_fst (s : UndistorterImpl) (u : Uninit) :
    (prepareReMap s u).1 = (s.camera_in.isValid && s.camera_out.isValid) := by
  cases hv : (s.camera_in.isValid && s.camera_out.isValid)
  · rw [prepareReMap_fail s u hv]
  · rw [prepareReMap_ok s u hv]

theorem built_remapX (cin cout : Camera) (i : Nat) (hi : i < cout.width * cout.height) :
    (builtTables cin cout).remapX[i]? = some (entX cin cout i) := by
  simp [builtTables, List.getElem?_map, List.getElem?_range hi]

theorem built_remapY (cin cout : Camera) (i : Nat) (hi : i < cout.width * cout.height) :
    (builtTables cin cout).remapY[i]? = some (entY cin cout i) := by
  simp [builtTables, List.getElem?_map, List.getElem?_range hi]

theorem built_remapFast (cin cout : Camera) (i : Nat) (hi : i < cout.width * cout.height) :
    (builtTables cin cout).remapFast[i]? = some (entFast cin cout i) := by
  simp [builtTables, List.getElem?_map, List.getElem?_range hi]

theorem built_remapIdx (cin cout : Camera) (i k : Nat) (hi : i < cout.width * cout.height)
    (hk : k < 4) :
    (builtTables cin cout).remapIdx[i * 4 + k]? =
      some (pixIdx cin cout (i % cout.width) (i / cout.width) k) := by
  have hj : i * 4 + k < cout.width * cout.height * 4 := by omega
  have h1 : (i * 4 + k) / 4 = i := by omega
  have h2 : (i * 4 + k) % 4 = k := by omega
  simp [builtTables, List.getElem?_map, List.getElem?_range hj, entIdx, h1, h2]

theorem built_remapCoef (cin cout : Camera) (i k : Nat) (hi : i < cout.width * cout.height)
    (hk : k < 4) :
    (builtTables cin cout).remapCoef[i * 4 + k]? =
      some (pixCoef cin cout (i % cout.width) (i / cout.width) k) := by
  have hj : i * 4 + k < cout.width * cout.height * 4 := by omega
  have h1 : (i * 4 + k) / 4 = i := by omega
  have h2 : (i * 4 + k) % 4 = k := by omega
  simp [builtTables, List.getElem?_map, List.getElem?_range hj, entCoef, h1, h2]

/-- A pixel whose `remapX` entry is not the sentinel has its source point inside the image. -/
theorem not_outside_of_pixX_ne {cin cout : Camera} {x y : Nat}
    (h : pixX cin cout x y ≠ -1) : ¬ outside cin (srcPoint cin cout x y) := by
  intro ho
  exact h (by simp [pixX, ho])

/-- The four weights of a pixel inside the image add up to one. -/
theorem pixCoef_sum {cin cout : Camera} {x y : Nat}
    (h : ¬ outside cin (srcPoint cin cout x y)) :
    pixCoef cin cout x y 0 + pixCoef cin cout x y 1 + pixCoef cin cout x y 2 +
      pixCoef cin cout x y 3 = 1 := by
  simp only [pixCoef, h, if_false]
  ring

/-- A monadic block that ends in `pure (true, _)` never yields the flag `false`. -/
theorem bind_true_ne_false (m : Except Fault (List Nat)) (g : List Nat → GImage) (r : GImage) :
    (m >>= fun d => pure (true, g d)) ≠ Except.ok (false, r) := by
  cases m with
  | error e => intro h; cases h
  | ok d => intro h; cases h

/-- A monadic block that ends in `pure (true, g d)` yields an image of the form `g d`. -/
theorem bind_true_eq (m : Except Fault (List Nat)) (g : List Nat → GImage) (r : GImage)
    (h : (m >>= fun d => pure (true, g d)) = Except.ok (true, r)) : ∃ d, r = g d := by
  cases m with
  | error e => cases h
  | ok d => cases h; exact ⟨d, rfl⟩

/-! ## Claims -/

/-- C1: `prepareReMap` returns true exactly when both cameras are valid, the valid flag after
the call equals the returned value, and a call that returns false leaves `remapX`, `remapY`,
`remapFast`, `remapIdx` and `remapCoef` exactly as they were. -/
theorem prepareReMap_contract (s : UndistorterImpl) (u : Uninit) :
    ((prepareReMap s u).1 = true ↔
        (s.camera_in.isValid = true ∧ s.camera_out.isValid = true)) ∧
      (prepareReMap s u).2.valid = (prepareReMap s u).1 ∧
      ((prepareReMap s u).1 = false →
        (prepareReMap s u).2.remapX = s.remapX ∧ (prepareReMap s u).2.remapY = s.remapY ∧
        (prepareReMap s u).2.remapFast = s.remapFast ∧
        (prepareReMap s u).2.remapIdx = s.remapIdx ∧
        (prepareReMap s u).2.remapCoef = s.remapCoef) := by
  cases hv : (s.camera_in.isValid && s.camera_out.isValid)
  · rw [prepareReMap_fail s u hv]
    refine ⟨?_, rfl, fun _ => ⟨rfl, rfl, rfl, rfl, rfl⟩⟩
    constructor
    · intro h; cases h
    · rintro ⟨h1, h2⟩; rw [h1, h2] at hv; cases hv
  · rw [prepareReMap_ok s u hv]
    refine ⟨?_, rfl, fun h => by cases h⟩
    constructor
    · intro _; simpa using hv
    · intro _; rfl

/-- C1, on a handle whose input camera became invalid: the call fails and the table of the
earlier build is still there. -/
theorem prepareReMap_contract_witness :
    (prepareReMap staleHandle junkInit).1 = false ∧
      (prepareReMap staleHandle junkInit).2.valid = false ∧
      (prepareReMap staleHandle junkInit).2.remapFast = some [0, 1, 2, 3] :=
  ⟨by decide!, (prepareReMap_contract staleHandle junkInit).2.1.trans (by decide!),
    ((prepareReMap_contract staleHandle junkInit).2.2 (by decide!)).2.2.1.trans (by decide!)⟩

/-- C2: `undistortFast` and `undistort` return false exactly when the handle is not valid or
the image size differs from the input camera, and then `result` is the input image. -/
theorem undistort_rejects (s : UndistorterImpl) (image : GImage) :
    ((∃ r, undistortFast s image = .ok (false, r)) ↔
        (s.valid = false ∨ image.rows ≠ s.camera_in.height ∨
          image.cols ≠ s.camera_in.width)) ∧
      (∀ r, undistortFast s image = .ok (false, r) → r = image) ∧
      ((∃ r, undistort s image = .ok (false, r)) ↔
        (s.valid = false ∨ image.rows ≠ s.camera_in.height ∨
          image.cols ≠ s.camera_in.width)) ∧
      (∀ r, undistort s image = .ok (false, r) → r = image) := by
  cases hv : s.valid
  · simp [undistortFast, undistort, hv]
  · by_cases hg : image.rows ≠ s.camera_in.height ∨ image.cols ≠ s.camera_in.width
    · simp only [undistortFast, undistort, hv, hg, Bool.not_true, Bool.false_eq_true, if_false,
        if_true]
      simp [hg]
    · simp only [undistortFast, undistort, hv, hg, Bool.not_true, Bool.false_eq_true, if_false]
      refine ⟨⟨?_, ?_⟩, ?_, ⟨?_, ?_⟩, ?_⟩
      · rintro ⟨r, hr⟩
        split_ifs at hr <;> exact absurd hr (bind_true_ne_false _ _ _)
      · intro h
        rcases h with h | h
        · cases h
        · exact h.elim
      · intro r hr
        split_ifs at hr <;> exact absurd hr (bind_true_ne_false _ _ _)
      · rintro ⟨r, hr⟩
        split_ifs at hr <;> exact absurd hr (bind_true_ne_false _ _ _)
      · intro h
        rcases h with h | h
        · cases h
        · exact h.elim
      · intro r hr
        split_ifs at hr <;> exact absurd hr (bind_true_ne_false _ _ _)

/-- C2, on a 3 × 2 image handed to a handle that expects 2 × 2: both calls return false with
the input image as result. -/
theorem undistort_rejects_witness :
    undistortFast identityHandle2 ⟨3, 2, 1, 1, [1, 2, 3, 4, 5, 6]⟩ =
        .ok (false, ⟨3, 2, 1, 1, [1, 2, 3, 4, 5, 6]⟩) ∧
      (∃ r, undistort identityHandle2 ⟨3, 2, 1, 1, [1, 2, 3, 4, 5, 6]⟩ = .ok (false, r)) :=
  ⟨by decide!,
    (undistort_rejects identityHandle2 ⟨3, 2, 1, 1, [1, 2, 3, 4, 5, 6]⟩).2.2.1.mpr
      (Or.inr (Or.inl (by decide!)))⟩

/-- C3 (code at the failing input): the only output pixel has `remapFast[0] = 0`, a valid
index, yet the one-channel branch of `undistortFast` tests `remapFast[i] > 0` and leaves the
pixel at zero instead of copying input pixel 0 (value 7); the generic branch tests
`remapX[i] > 0` and does the same with a two-channel image. -/
theorem undistortFast_drops_index_zero :
    cornerHandle.valid = true ∧ cornerHandle.remapX = some [0] ∧
      cornerHandle.remapFast = some [0] ∧
      undistortFast cornerHandle ⟨2, 2, 1, 1, [7, 8, 9, 10]⟩ = .ok (true, ⟨1, 1, 1, 1, [0]⟩) ∧
      undistortFast cornerHandle ⟨2, 2, 2, 2, [7, 8, 9, 10, 11, 12, 13, 14]⟩ =
        .ok (true, ⟨1, 1, 2, 2, [0, 0]⟩) := by
  decide!

/-- C4 (code at the failing input): with three channels the only output pixel has
`remapX[0] = 0`, a valid coordinate with neighbours `0, 1, 2, 3` and weights `1, 0, 0, 0`, yet
the multi-channel branch of `undistort` tests `remapX[i] > 0` and leaves the pixel at zero
instead of `7, 8, 9`; with four channels the same branch writes pixel 1 at elements
`1 * 3 + j` instead of `1 * 4 + j`. -/
theorem undistort_multichannel_misses :
    cornerHandle.remapX = some [0] ∧ cornerHandle.remapIdx = some [0, 1, 2, 3] ∧
      cornerHandle.remapCoef = some [1, 0, 0, 0] ∧
      undistort cornerHandle ⟨2, 2, 3, 3, [7, 8, 9, 10, 11, 12, 13, 14, 15, 16, 17, 18]⟩ =
        .ok (true, ⟨1, 1, 3, 3, [0, 0, 0]⟩) ∧
      halfShiftHandle.remapX = some [1 / 2, 3 / 2] ∧
      halfShiftHandle.remapIdx = some [0, 1, 3, 4, 1, 2, 4, 5] ∧
      halfShiftHandle.remapCoef = some [1 / 2, 1 / 2, 0, 0, 1 / 2, 1 / 2, 0, 0] ∧
      undistort halfShiftHandle
          ⟨2, 3, 4, 4, [0, 10, 20, 30, 40, 50, 60, 70, 80, 90, 100, 110, 120, 130, 140, 150,
            160, 170, 180, 190, 200, 210, 220, 230]⟩ =
        .ok (true, ⟨1, 2, 4, 4, [20, 30, 40, 60, 70, 80, 90, 0]⟩) := by
  decide!

/-- C5 (code at the failing input): the only output pixel maps to `(-1/2, 3)`, outside the
4 × 4 input, so `remapFast[0] = -1`; the three-channel branch of `undistortFast` copies
`p_img[remapFast[i]]` without a test and reads the input at index `-1`. -/
theorem undistortFast_reads_before_buffer :
    offImageHandle.valid = true ∧ offImageHandle.remapX = some [-1] ∧
      offImageHandle.remapFast = some [-1] ∧
      undistortFast offImageHandle ⟨4, 4, 3, 3, List.replicate 48 9⟩ =
        .error (.inputRead (-1)) := by
  decide!

/-- C6 (code at the failing input): with identical 4 × 4 pinhole cameras and a one-channel
image, `undistortFast` returns the image with pixel 0 zeroed, and `undistort` reads
`p_img[16]`, one row below the last one, for output pixel 12. -/
theorem identity_not_reproduced :
    identityHandle4.remapFast = some [0, 1, 2, 3, 4, 5, 6, 7, 8, 9, 10, 11, 12, 13, 14, 15] ∧
      undistortFast identityHandle4
          ⟨4, 4, 1, 1, [1, 2, 3, 4, 5, 6, 7, 8, 9, 10, 11, 12, 13, 14, 15, 16]⟩ =
        .ok (true, ⟨4, 4, 1, 1, [0, 2, 3, 4, 5, 6, 7, 8, 9, 10, 11, 12, 13, 14, 15, 16]⟩) ∧
      undistort identityHandle4
          ⟨4, 4, 1, 1, [1, 2, 3, 4, 5, 6, 7, 8, 9, 10, 11, 12, 13, 14, 15, 16]⟩ =
        .error (.inputRead 16) := by
  decide!

/-- C7 (code at the failing input): with identical 2 × 2 pinhole cameras every output pixel is
valid, yet pixels 1, 2 and 3 hold neighbour indices `4`, `5`, `6`, outside `[0, 4)`, and
`undistort` reads the input there. -/
theorem neighbour_index_past_end :
    identityHandle2.valid = true ∧ identityHandle2.remapX = some [0, 1, 0, 1] ∧
      identityHandle2.remapIdx = some [0, 1, 2, 3, 1, 2, 3, 4, 2, 3, 4, 5, 3, 4, 5, 6] ∧
      undistort identityHandle2 ⟨2, 2, 1, 1, [7, 8, 9, 10]⟩ = .error (.inputRead 4) := by
  decide!

/-- C8: in a table built by a successful `prepareReMap`, the four weights of every output
pixel marked valid (its `remapX` entry is not the sentinel `-1`) add up to exactly one. -/
theorem weights_sum_to_one (s : UndistorterImpl) (u : Uninit)
    (hv : (prepareReMap s u).1 = true) (i : Nat)
    (hi : i < s.camera_out.width * s.camera_out.height) (X : List ℚ)
    (hX : (prepareReMap s u).2.remapX = some X) (hvalid : X[i]? ≠ some (-1)) :
    ∃ (C : List ℚ) (c0 c1 c2 c3 : ℚ), (prepareReMap s u).2.remapCoef = some C ∧
      C[i * 4 + 0]? = some c0 ∧ C[i * 4 + 1]? = some c1 ∧ C[i * 4 + 2]? = some c2 ∧
      C[i * 4 + 3]? = some c3 ∧ c0 + c1 + c2 + c3 = 1 := by
  rw [prepareReMap_fst] at hv
  rw [prepareReMap_ok s u hv] at hX ⊢
  have hX2 : X = (builtTables s.camera_in s.camera_out).remapX := (Option.some.inj hX).symm
  rw [hX2, built_remapX _ _ i hi] at hvalid
  have hx : pixX s.camera_in s.camera_out (i % s.camera_out.width) (i / s.camera_out.width) ≠
      -1 := fun h => hvalid (by rw [entX, h])
  exact ⟨_, _, _, _, _, rfl, built_remapCoef _ _ i 0 hi (by omega),
    built_remapCoef _ _ i 1 hi (by omega), built_remapCoef _ _ i 2 hi (by omega),
    built_remapCoef _ _ i 3 hi (by omega), pixCoef_sum (not_outside_of_pixX_ne hx)⟩

/-- C8, on output pixel 1 of the half-pixel-shifted table: `remapX = [1/2, 3/2]`, the pixel is
valid and its weights `1/2, 1/2, 0, 0` add up to one. -/
theorem weights_sum_to_one_witness :
    ∃ (C : List ℚ) (c0 c1 c2 c3 : ℚ),
      (prepareReMap halfShiftHandle junkInit).2.remapCoef = some C ∧
      C[1 * 4 + 0]? = some c0 ∧ C[1 * 4 + 1]? = some c1 ∧ C[1 * 4 + 2]? = some c2 ∧
      C[1 * 4 + 3]? = some c3 ∧ c0 + c1 + c2 + c3 = 1 :=
  weights_sum_to_one halfShiftHandle junkInit (by decide!) 1 (by decide!) [1 / 2, 3 / 2]
    (by decide!) (by decide!)

/-- C9: when `undistortFast` or `undistort` returns true, `result` has the rows and columns
of the output camera and the pixel type (channel count and element size) of the input. -/
theorem result_shape (s : UndistorterImpl) (image r : GImage)
    (h : undistortFast s image = .ok (true, r) ∨ undistort s image = .ok (true, r)) :
    r.rows = s.camera_out.height ∧ r.cols = s.camera_out.width ∧
      r.channels = image.channels ∧ r.elemSize = image.elemSize := by
  rcases h with h | h
  · simp only [undistortFast] at h
    split_ifs at h <;>
      first
      | (obtain ⟨d, rfl⟩ := bind_true_eq _ _ _ h; exact ⟨rfl, rfl, rfl, rfl⟩)
      | cases h
  · simp only [undistort] at h
    split_ifs at h <;>
      first
      | (obtain ⟨d, rfl⟩ := bind_true_eq _ _ _ h; exact ⟨rfl, rfl, rfl, rfl⟩)
      | cases h

/-- C9, on a 2 × 3 four-channel image resampled to the 2 × 1 output camera. -/
theorem result_shape_witness :
    (⟨1, 2, 4, 4, [20, 30, 40, 60, 70, 80, 90, 0]⟩ : GImage).rows =
        halfShiftHandle.camera_out.height ∧
      (⟨1, 2, 4, 4, [20, 30, 40, 60, 70, 80, 90, 0]⟩ : GImage).cols =
        halfShiftHandle.camera_out.width ∧
      (⟨1, 2, 4, 4, [20, 30, 40, 60, 70, 80, 90, 0]⟩ : GImage).channels = 4 ∧
      (⟨1, 2, 4, 4, [20, 30, 40, 60, 70, 80, 90, 0]⟩ : GImage).elemSize = 4 :=
  result_shape halfShiftHandle
    ⟨2, 3, 4, 4, [0, 10, 20, 30, 40, 50, 60, 70, 80, 90, 100, 110, 120, 130, 140, 150,
      160, 170, 180, 190, 200, 210, 220, 230]⟩
    ⟨1, 2, 4, 4, [20, 30, 40, 60, 70, 80, 90, 0]⟩ (Or.inr (by decide!))

/-- C10: for valid cameras the outcome of `prepareReMap` (flag and all five arrays) depends on
the camera pair only: not on the arrays held before the call, not on what the fresh arrays
happened to contain. -/
theorem prepareReMap_deterministic (s s' : UndistorterImpl) (u u' : Uninit)
    (hin : s'.camera_in = s.camera_in) (hout : s'.camera_out = s.camera_out)
    (hv : s.camera_in.isValid = true ∧ s.camera_out.isValid = true) :
    (prepareReMap s' u').1 = (prepareReMap s u).1 ∧
      (prepareReMap s' u').2.valid = (prepareReMap s u).2.valid ∧
      (prepareReMap s' u').2.remapX = (prepareReMap s u).2.remapX ∧
      (prepareReMap s' u').2.remapY = (prepareReMap s u).2.remapY ∧
      (prepareReMap s' u').2.remapFast = (prepareReMap s u).2.remapFast ∧
      (prepareReMap s' u').2.remapIdx = (prepareReMap s u).2.remapIdx ∧
      (prepareReMap s' u').2.remapCoef = (prepareReMap s u).2.remapCoef := by
  have h1 : (s.camera_in.isValid && s.camera_out.isValid) = true := by
    rw [hv.1, hv.2]; rfl
  have h2 : (s'.camera_in.isValid && s'.camera_out.isValid) = true := by
    rw [hin, hout]; exact h1
  rw [prepareReMap_ok s u h1, prepareReMap_ok s' u' h2, hin, hout]
  exact ⟨rfl, rfl, rfl, rfl, rfl, rfl, rfl⟩

/-- C10, rebuilding over arbitrary old arrays with differently filled fresh memory gives the
table of the first build. -/
theorem prepareReMap_deterministic_witness :
    (prepareReMap scribbledHandle junkInit).1 = (prepareReMap identityHandle2 zeroInit).1 ∧
      (prepareReMap scribbledHandle junkInit).2.valid =
        (prepareReMap identityHandle2 zeroInit).2.valid ∧
      (prepareReMap scribbledHandle junkInit).2.remapX =
        (prepareReMap identityHandle2 zeroInit).2.remapX ∧
      (prepareReMap scribbledHandle junkInit).2.remapY =
        (prepareReMap identityHandle2 zeroInit).2.remapY ∧
      (prepareReMap scribbledHandle junkInit).2.remapFast =
        (prepareReMap identityHandle2 zeroInit).2.remapFast ∧
      (prepareReMap scribbledHandle junkInit).2.remapIdx =
        (prepareReMap identityHandle2 zeroInit).2.remapIdx ∧
      (prepareReMap scribbledHandle junkInit).2.remapCoef =
        (prepareReMap identityHandle2 zeroInit).2.remapCoef :=
  prepareReMap_deterministic identityHandle2 scribbledHandle zeroInit junkInit rfl rfl
    ⟨by decide!, by decide!⟩

/-! ## Facts about one table entry -/

theorem castInt_of_nonneg {q : ℚ} (h : 0 ≤ q) : castInt q = ⌊q⌋ := by
  simp [castInt, h]

theorem inside_bounds {cin : Camera} {p : Point2d} (h : ¬ outside cin p) :
    0 ≤ p.x ∧ 0 ≤ p.y ∧ p.x < cin.width ∧ p.y < cin.height := by
  simp only [outside, not_or, not_lt, ge_iff_le, not_le] at h
  exact h

theorem pixel_index_lt {w h x y : Nat} (hx : x < w) (hy : y < h) : y * w + x < w * h := by
  have h1 : (y + 1) * w ≤ h * w := Nat.mul_le_mul_right w hy
  have h2 : (y + 1) * w = y * w + w := by ring
  have h3 : h * w = w * h := Nat.mul_comm _ _
  omega

/-- The eleven entries of output pixel `(x, y)` in the built table. -/
theorem built_at (cin cout : Camera) (x y : Nat) (hx : x < cout.width) (hy : y < cout.height) :
    (builtTables cin cout).remapX[y * cout.width + x]? = some (pixX cin cout x y) ∧
      (builtTables cin cout).remapY[y * cout.width + x]? = some (pixY cin cout x y) ∧
      (builtTables cin cout).remapFast[y * cout.width + x]? = some (pixFast cin cout x y) ∧
      ∀ k, k < 4 →
        (builtTables cin cout).remapIdx[(y * cout.width + x) * 4 + k]? =
            some (pixIdx cin cout x y k) ∧
          (builtTables cin cout).remapCoef[(y * cout.width + x) * 4 + k]? =
            some (pixCoef cin cout x y k) := by
  have hi := pixel_index_lt hx hy
  obtain ⟨e1, e2⟩ := @index_decomp cout.width x y hx
  refine ⟨?_, ?_, ?_, ?_⟩
  · rw [built_remapX _ _ _ hi, entX, e1, e2]
  · rw [built_remapY _ _ _ hi, entY, e1, e2]
  · rw [built_remapFast _ _ _ hi, entFast, e1, e2]
  · intro k hk
    rw [built_remapIdx _ _ _ k hi hk, built_remapCoef _ _ _ k hi hk, e1, e2]
    exact ⟨rfl, rfl⟩

theorem prepareReMap_hasTables (s : UndistorterImpl) (u : Uninit)
    (hv : (prepareReMap s u).1 = true) :
    HasTables (prepareReMap s u).2 (builtTables s.camera_in s.camera_out) := by
  rw [prepareReMap_fst] at hv
  rw [prepareReMap_ok s u hv]
  exact ⟨rfl, rfl, rfl, rfl, rfl⟩

theorem hasTables_unique {s : UndistorterImpl} {T T' : Tables} (h : HasTables s T)
    (h' : HasTables s T') : T = T' := by
  obtain ⟨a1, a2, a3, a4, a5⟩ := h
  obtain ⟨b1, b2, b3, b4, b5⟩ := h'
  cases T; cases T'
  simp only at a1 a2 a3 a4 a5 b1 b2 b3 b4 b5
  rw [a1] at b1; rw [a2] at b2; rw [a3] at b3; rw [a4] at b4; rw [a5] at b5
  simp only [Option.some.injEq] at b1 b2 b3 b4 b5
  simp [b1, b2, b3, b4, b5]

theorem hasTables_built {s : UndistorterImpl} {u : Uninit} {T : Tables}
    (hv : (prepareReMap s u).1 = true) (hT : HasTables (prepareReMap s u).2 T) :
    T = builtTables s.camera_in s.camera_out :=
  hasTables_unique hT (prepareReMap_hasTables s u hv)

theorem prepareReMap_cameras (s : UndistorterImpl) (u : Uninit) :
    (prepareReMap s u).2.camera_in = s.camera_in ∧
      (prepareReMap s u).2.camera_out = s.camera_out := by
  cases hv : (s.camera_in.isValid && s.camera_out.isValid)
  · rw [prepareReMap_fail s u hv]; exact ⟨rfl, rfl⟩
  · rw [prepareReMap_ok s u hv]; exact ⟨rfl, rfl⟩

theorem runOn_access {α : Type} (r : Except Fault α) (s : UndistorterImpl) :
    runOn (access r) s = (r, s) := by
  cases r <;> rfl

theorem runOn_bind {α β : Type} (m : HandleM α) (k : α → HandleM β) (s : UndistorterImpl) :
    runOn (m >>= k) s =
      match runOn m s with
      | (.ok a, s') => runOn (k a) s'
      | (.error e, s') => (.error e, s') := by
  simp only [runOn, ExceptT.run_bind, StateT.run_bind]
  cases h : (StateT.run (ExceptT.run m) s) with
  | mk r s' =>
    cases r with
    | ok a => rfl
    | error e => rfl

theorem reads_pure {α : Type} (a : α) : Reads (pure a : HandleM α) (fun _ => .ok a) :=
  fun _ => rfl

theorem reads_member {α : Type} (f : UndistorterImpl → α) :
    Reads (member f) (fun s => .ok (f s)) :=
  fun _ => rfl

theorem reads_access {α : Type} (r : Except Fault α) : Reads (access r) (fun _ => r) :=
  fun s => runOn_access r s

theorem reads_bind {α β : Type} {m : HandleM α} {k : α → HandleM β}
    {f : UndistorterImpl → Except Fault α} {g : α → UndistorterImpl → Except Fault β}
    (hm : Reads m f) (hk : ∀ a, Reads (k a) (g a)) :
    Reads (m >>= k) (fun s => f s >>= fun a => g a s) := by
  intro s
  show runOn (m >>= k) s = (f s >>= fun a => g a s, s)
  rw [runOn_bind, hm s]
  cases f s with
  | ok a => exact hk a s
  | error e => rfl

theorem reads_ite {α : Type} (c : Prop) [Decidable c] {a b : HandleM α}
    {f g : UndistorterImpl → Except Fault α} (ha : Reads a f) (hb : Reads b g) :
    Reads (if c then a else b) (fun s => if c then f s else g s) := by
  intro s
  by_cases h : c
  · simp only [if_pos h]; exact ha s
  · simp only [if_neg h]; exact hb s

theorem reads_foldlM {α β : Type} {b : β → α → HandleM β}
    {pb : β → α → UndistorterImpl → Except Fault β}
    (h : ∀ acc a, Reads (b acc a) (pb acc a)) (l : List α) (init : β) :
    Reads (l.foldlM b init) (fun s => l.foldlM (fun acc a => pb acc a s) init) := by
  intro s
  show runOn (l.foldlM b init) s = (l.foldlM (fun acc a => pb acc a s) init, s)
  induction l generalizing init with
  | nil => rfl
  | cons a l ih =>
    rw [List.foldlM_cons, List.foldlM_cons, runOn_bind, h init a s]
    cases hp : pb init a s with
    | ok v => exact ih v
    | error e => rfl

theorem reads_congr {α : Type} {m : HandleM α} {f g : UndistorterImpl → Except Fault α}
    (h : Reads m f) (hfg : ∀ s, f s = g s) : Reads m g := by
  intro s
  rw [h s, hfg s]

/-- The body of `undistortFast` run on a handle `s` has the outcome `undistortFast s image`
and hands the handle back as it was: every statement of lines 214-265 is a read of a member,
an access through a pointer or a computation on locals. -/
theorem undistortFastBody_reads (image : GImage) :
    Reads (undistortFastBody image) (fun s => undistortFast s image) := by
  apply reads_congr
  case h =>
    unfold undistortFastBody
    repeat (first
      | exact reads_pure _
      | exact reads_member _
      | exact reads_access _
      | apply reads_bind
      | apply reads_ite
      | apply reads_foldlM
      | intro _)
  case hfg =>
    intro s
    rfl

set_option maxRecDepth 8000 in
set_option maxHeartbeats 2000000 in
/-- The body of `undistort` run on a handle `s` has the outcome `undistort s image` and hands
the handle back as it was. -/
theorem undistortBody_reads (image : GImage) :
    Reads (undistortBody image) (fun s => undistort s image) := by
  apply reads_congr
  case h =>
    unfold undistortBody interpBody
    with_reducible repeat (first
      | exact reads_pure _
      | exact reads_member _
      | exact reads_access _
      | apply reads_bind
      | apply reads_ite
      | apply reads_foldlM
      | intro _)
  case hfg =>
    intro s
    simp only [undistort, interp, bind, Except.bind, pure, Except.pure]

theorem undistortFastStep_eq (s : UndistorterImpl) (image : GImage) :
    undistortFastStep s image = (undistortFast s image).map (fun r => (r, s)) := by
  have h : runOn (undistortFastBody image) s = (undistortFast s image, s) :=
    undistortFastBody_reads image s
  rw [undistortFastStep, h]
  cases undistortFast s image <;> rfl

theorem undistortStep_eq (s : UndistorterImpl) (image : GImage) :
    undistortStep s image = (undistort s image).map (fun r => (r, s)) := by
  have h : runOn (undistortBody image) s = (undistort s image, s) :=
    undistortBody_reads image s
  rw [undistortStep, h]
  cases undistort s image <;> rfl

theorem undistortFastStep_state {s s' : UndistorterImpl} {image : GImage} {r : Bool × GImage}
    (h : undistortFastStep s image = .ok (r, s')) : s' = s := by
  rw [undistortFastStep_eq] at h
  cases hr : undistortFast s image with
  | error e => rw [hr] at h; cases h
  | ok v =>
    rw [hr] at h
    simp only [Except.map, Except.ok.injEq, Prod.mk.injEq] at h
    exact h.2.symm

theorem undistortStep_state {s s' : UndistorterImpl} {image : GImage} {r : Bool × GImage}
    (h : undistortStep s image = .ok (r, s')) : s' = s := by
  rw [undistortStep_eq] at h
  cases hr : undistort s image with
  | error e => rw [hr] at h; cases h
  | ok v =>
    rw [hr] at h
    simp only [Except.map, Except.ok.injEq, Prod.mk.injEq] at h
    exact h.2.symm

/-- An assignment to a member is told apart: code that flips `valid` is not a `Reads`. -/
theorem assignment_not_reads :
    ¬ ∃ f, Reads (modify (fun s => { s with valid := !s.valid }) : HandleM Unit) f := by
  rintro ⟨f, h⟩
  have h1 : (runOn (modify (fun s => { s with valid := !s.valid }) : HandleM Unit)
      (blankHandle (idCam 1 1) (idCam 1 1))).2 = blankHandle (idCam 1 1) (idCam 1 1) := by
    rw [h (blankHandle (idCam 1 1) (idCam 1 1))]
  exact Bool.false_ne_true (congrArg UndistorterImpl.valid h1)

theorem built_lengths (cin cout : Camera) :
    (builtTables cin cout).remapX.length = cout.width * cout.height ∧
      (builtTables cin cout).remapY.length = cout.width * cout.height ∧
      (builtTables cin cout).remapFast.length = cout.width * cout.height ∧
      (builtTables cin cout).remapIdx.length = 4 * (cout.width * cout.height) ∧
      (builtTables cin cout).remapCoef.length = 4 * (cout.width * cout.height) := by
  simp [builtTables, Nat.mul_comm]

/-- Floors of the coordinates of a source point inside the image. -/
theorem floor_bounds {cin : Camera} {p : Point2d} (h : ¬ outside cin p) :
    0 ≤ ⌊p.x⌋ ∧ ⌊p.x⌋ < cin.width ∧ 0 ≤ ⌊p.y⌋ ∧ ⌊p.y⌋ < cin.height := by
  obtain ⟨h1, h2, h3, h4⟩ := inside_bounds h
  refine ⟨Int.floor_nonneg.mpr h1, ?_, Int.floor_nonneg.mpr h2, ?_⟩
  · rw [Int.floor_lt]; exact_mod_cast h3
  · rw [Int.floor_lt]; exact_mod_cast h4

/-- The number `floor(p.x) + inW * floor(p.y)` of a source point inside the image addresses a
pixel of the image. -/
theorem flatIndex_bounds {cin : Camera} {p : Point2d} (h : ¬ outside cin p) :
    0 ≤ ⌊p.x⌋ + (cin.width : Int) * ⌊p.y⌋ ∧
      ⌊p.x⌋ + (cin.width : Int) * ⌊p.y⌋ < (cin.width : Int) * cin.height := by
  obtain ⟨f1, f2, f3, f4⟩ := floor_bounds h
  have hw : (0 : Int) ≤ cin.width := Int.natCast_nonneg _
  constructor
  · positivity
  · have h5 : (cin.width : Int) * ⌊p.y⌋ ≤ (cin.width : Int) * ((cin.height : Int) - 1) :=
      mul_le_mul_of_nonneg_left (by omega) hw
    have h6 : (cin.width : Int) * ((cin.height : Int) - 1) =
        (cin.width : Int) * cin.height - cin.width := by ring
    omega

/-- When the pixel count of the input fits `int`, the fast index of a source point inside the
image is stored without wrap-around. -/
theorem fastIndex_exact {cin cout : Camera} {x y : Nat}
    (h : ¬ outside cin (srcPoint cin cout x y)) (hfit : cin.width * cin.height ≤ 2 ^ 31) :
    ⌊(srcPoint cin cout x y).x⌋ + (cin.width : Int) * ⌊(srcPoint cin cout x y).y⌋ =
      pixFast cin cout x y := by
  obtain ⟨h1, h2, _, _⟩ := inside_bounds h
  obtain ⟨b1, b2⟩ := flatIndex_bounds h
  have hc : (cin.width : Int) * cin.height ≤ 2 ^ 31 := by exact_mod_cast hfit
  rw [pixFast, if_neg h, castInt_of_nonneg h1, castInt_of_nonneg h2, toInt32_of_fits]
  · norm_num; omega
  · omega

/-- C11: for every handle `s` and every input image, the handle that `undistortFast` and
`undistort` leave behind is `s` itself, with every member (both cameras, the valid flag and the
five table arrays) as before the call. This holds for all three outcomes: the call returns
true, it returns false, or it stops at an access outside a buffer. -/
theorem resamplers_preserve_handle (s : UndistorterImpl) (image : GImage) :
    ((runOn (undistortFastBody image) s).2 = s ∧
        (runOn (undistortFastBody image) s).1 = undistortFast s image) ∧
      ((runOn (undistortBody image) s).2 = s ∧
        (runOn (undistortBody image) s).1 = undistort s image) := by
  have h1 : runOn (undistortFastBody image) s = (undistortFast s image, s) :=
    undistortFastBody_reads image s
  have h2 : runOn (undistortBody image) s = (undistort s image, s) :=
    undistortBody_reads image s
  rw [h1, h2]
  exact ⟨⟨rfl, rfl⟩, ⟨rfl, rfl⟩⟩

/-- C12: in a built table, an output pixel `(x, y)` whose source point lies outside the input
image has `-1` in `remapX`, `remapY` and `remapFast`, and `0` in its four `remapIdx` and its
four `remapCoef` entries. -/
theorem outside_pixel_entries (s : UndistorterImpl) (u : Uninit)
    (hv : (prepareReMap s u).1 = true) (x y : Nat) (hx : x < s.camera_out.width)
    (hy : y < s.camera_out.height)
    (hout : (srcPoint s.camera_in s.camera_out x y).x < 0 ∨
      (srcPoint s.camera_in s.camera_out x y).y < 0 ∨
      (srcPoint s.camera_in s.camera_out x y).x ≥ s.camera_in.width ∨
      (srcPoint s.camera_in s.camera_out x y).y ≥ s.camera_in.height) :
    ∃ T, HasTables (prepareReMap s u).2 T ∧
      T.remapX[y * s.camera_out.width + x]? = some (-1) ∧
      T.remapY[y * s.camera_out.width + x]? = some (-1) ∧
      T.remapFast[y * s.camera_out.width + x]? = some (-1) ∧
      ∀ k, k < 4 →
        T.remapIdx[(y * s.camera_out.width + x) * 4 + k]? = some 0 ∧
          T.remapCoef[(y * s.camera_out.width + x) * 4 + k]? = some 0 := by
  have ho : outside s.camera_in (srcPoint s.camera_in s.camera_out x y) := hout
  obtain ⟨b1, b2, b3, b4⟩ := built_at s.camera_in s.camera_out x y hx hy
  refine ⟨_, prepareReMap_hasTables s u hv, ?_, ?_, ?_, ?_⟩
  · rw [b1, pixX, if_pos ho]
  · rw [b2, pixY, if_pos ho]
  · rw [b3, pixFast, if_pos ho]
  · intro k hk
    rw [(b4 k hk).1, (b4 k hk).2]
    simp [pixIdx, pixCoef, ho]

/-- C12, on the pixel that maps to `(-1/2, 3)`. -/
theorem outside_pixel_entries_witness :
    ∃ T, HasTables (prepareReMap offImageHandle junkInit).2 T ∧
      T.remapX[0 * offImageHandle.camera_out.width + 0]? =
        some (-1) ∧
      T.remapY[0 * offImageHandle.camera_out.width + 0]? =
        some (-1) ∧
      T.remapFast[0 * offImageHandle.camera_out.width + 0]? =
        some (-1) ∧
      ∀ k, k < 4 →
        T.remapIdx[(0 * offImageHandle.camera_out.width + 0) * 4 + k]? = some 0 ∧
          T.remapCoef[(0 * offImageHandle.camera_out.width + 0) * 4 + k]? = some 0 :=
  outside_pixel_entries offImageHandle junkInit
    (by decide!) 0 0 (by decide!) (by decide!) (Or.inl (by decide!))

/-- C13 (as amended): in a built table, an output pixel `(x, y)` whose source point `p`
satisfies `0 ≤ p.x < inW` and `0 ≤ p.y < inH` has in `remapX` and `remapY` the coordinates
`p.x` and `p.y` rounded to `float`, and in `remapFast` the number
`floor(p.x) + inW * floor(p.y)` as a 32-bit `int`, which is that number itself when
`inW * inH ≤ 2^31`. -/
theorem inside_pixel_entries (s : UndistorterImpl) (u : Uninit)
    (hv : (prepareReMap s u).1 = true) (x y : Nat) (hx : x < s.camera_out.width)
    (hy : y < s.camera_out.height)
    (hpx : 0 ≤ (srcPoint s.camera_in s.camera_out x y).x ∧
      (srcPoint s.camera_in s.camera_out x y).x < s.camera_in.width)
    (hpy : 0 ≤ (srcPoint s.camera_in s.camera_out x y).y ∧
      (srcPoint s.camera_in s.camera_out x y).y < s.camera_in.height) :
    ∃ T, HasTables (prepareReMap s u).2 T ∧
      T.remapX[y * s.camera_out.width + x]? =
        some (toFloat (srcPoint s.camera_in s.camera_out x y).x) ∧
      T.remapY[y * s.camera_out.width + x]? =
        some (toFloat (srcPoint s.camera_in s.camera_out x y).y) ∧
      T.remapFast[y * s.camera_out.width + x]? =
        some (toInt32 (⌊(srcPoint s.camera_in s.camera_out x y).x⌋ +
          s.camera_in.width * ⌊(srcPoint s.camera_in s.camera_out x y).y⌋)) ∧
      (s.camera_in.width * s.camera_in.height ≤ 2 ^ 31 →
        T.remapFast[y * s.camera_out.width + x]? =
          some (⌊(srcPoint s.camera_in s.camera_out x y).x⌋ +
            s.camera_in.width * ⌊(srcPoint s.camera_in s.camera_out x y).y⌋)) := by
  have ho : ¬ outside s.camera_in (srcPoint s.camera_in s.camera_out x y) := by
    simp only [outside, not_or, not_lt, ge_iff_le, not_le]
    exact ⟨hpx.1, hpy.1, hpx.2, hpy.2⟩
  obtain ⟨b1, b2, b3, _⟩ := built_at s.camera_in s.camera_out x y hx hy
  have e3 : pixFast s.camera_in s.camera_out x y =
      toInt32 (⌊(srcPoint s.camera_in s.camera_out x y).x⌋ +
        s.camera_in.width * ⌊(srcPoint s.camera_in s.camera_out x y).y⌋) := by
    rw [pixFast, if_neg ho, castInt_of_nonneg hpx.1, castInt_of_nonneg hpy.1]
  refine ⟨_, prepareReMap_hasTables s u hv, ?_, ?_, ?_, ?_⟩
  · rw [b1, pixX, if_neg ho]
  · rw [b2, pixY, if_neg ho]
  · rw [b3, e3]
  · intro hfit
    rw [b3, ← fastIndex_exact ho hfit]

/-- C13 (as amended), on output pixel `(1, 0)` of the half-pixel-shifted cameras: its source
point is `(3/2, 0)`. -/
theorem inside_pixel_entries_witness :
    ∃ T, HasTables (prepareReMap halfShiftHandle junkInit).2 T ∧
      T.remapX[0 * halfShiftHandle.camera_out.width + 1]? =
        some (toFloat (srcPoint halfShiftHandle.camera_in halfShiftHandle.camera_out 1 0).x) ∧
      T.remapY[0 * halfShiftHandle.camera_out.width + 1]? =
        some (toFloat (srcPoint halfShiftHandle.camera_in halfShiftHandle.camera_out 1 0).y) ∧
      T.remapFast[0 * halfShiftHandle.camera_out.width + 1]? =
        some (toInt32 (⌊(srcPoint halfShiftHandle.camera_in halfShiftHandle.camera_out 1 0).x⌋ +
          halfShiftHandle.camera_in.width *
            ⌊(srcPoint halfShiftHandle.camera_in halfShiftHandle.camera_out 1 0).y⌋)) ∧
      (halfShiftHandle.camera_in.width * halfShiftHandle.camera_in.height ≤ 2 ^ 31 →
        T.remapFast[0 * halfShiftHandle.camera_out.width + 1]? =
          some (⌊(srcPoint halfShiftHandle.camera_in halfShiftHandle.camera_out 1 0).x⌋ +
            halfShiftHandle.camera_in.width *
              ⌊(srcPoint halfShiftHandle.camera_in halfShiftHandle.camera_out 1 0).y⌋)) :=
  inside_pixel_entries halfShiftHandle junkInit (by decide!) 1 0 (by decide!) (by decide!)
    ⟨by decide!, by decide!⟩ ⟨by decide!, by decide!⟩

/-- C13 (counterexample to the claim as stated): the source point `(2 - 2^-30, 0)` lies inside
the 4 × 2 input, yet `remapX` holds `2`, the nearest `float`, not `p.x`; and for the source
point `(0, 32768)` of a `65536 × 65536` input, `floor(p.x) + inW * floor(p.y)` is `2^31`
while `remapFast` holds `-2^31`. -/
theorem stored_coordinate_not_source_point :
    nearTwoHandle.valid = true ∧
      srcPoint nearTwoHandle.camera_in nearTwoHandle.camera_out 0 0 =
        ⟨2147483647 / 1073741824, 0⟩ ∧
      (2147483647 / 1073741824 : ℚ) < nearTwoHandle.camera_in.width ∧
      nearTwoHandle.remapX = some [2] ∧
      nearTwoHandle.remapX ≠
        some [(srcPoint nearTwoHandle.camera_in nearTwoHandle.camera_out 0 0).x] ∧
      squareHandle.valid = true ∧
      srcPoint squareHandle.camera_in squareHandle.camera_out 0 0 = ⟨0, 32768⟩ ∧
      (⌊(0 : ℚ)⌋ + (squareHandle.camera_in.width : Int) * ⌊(32768 : ℚ)⌋ = 2147483648) ∧
      squareHandle.remapFast = some [-2147483648] := by
  decide!

/-- C14 (as amended): in a built table, a valid output pixel `i` with stored coordinates
`sx, sy` whose largest neighbour index `(yi+1)*inW + xi + 1` fits the 32-bit `int` has in
slots 0..3 of `remapIdx` the flattened indices of `(xi, yi)`, `(xi+1, yi)`, `(xi, yi+1)`,
`(xi+1, yi+1)` and in slots 0..3 of `remapCoef` the weights `(1-dx)(1-dy)`, `dx(1-dy)`,
`(1-dx)dy`, `dx*dy`, where `xi = floor sx`, `yi = floor sy`, `dx = sx - xi`, `dy = sy - yi`. -/
theorem bilinear_slots (s : UndistorterImpl) (u : Uninit) (hv : (prepareReMap s u).1 = true)
    (i : Nat) (hi : i < s.camera_out.width * s.camera_out.height) (T : Tables)
    (hT : HasTables (prepareReMap s u).2 T) (sx sy : ℚ) (hsx : T.remapX[i]? = some sx)
    (hsy : T.remapY[i]? = some sy) (hvalid : sx ≠ -1)
    (hfit : (⌊sy⌋ + 1) * (s.camera_in.width : Int) + ⌊sx⌋ + 1 < 2 ^ 31) :
    T.remapIdx[i * 4 + 0]? = some (⌊sy⌋ * s.camera_in.width + ⌊sx⌋) ∧
      T.remapIdx[i * 4 + 1]? = some (⌊sy⌋ * s.camera_in.width + ⌊sx⌋ + 1) ∧
      T.remapIdx[i * 4 + 2]? = some ((⌊sy⌋ + 1) * s.camera_in.width + ⌊sx⌋) ∧
      T.remapIdx[i * 4 + 3]? = some ((⌊sy⌋ + 1) * s.camera_in.width + ⌊sx⌋ + 1) ∧
      T.remapCoef[i * 4 + 0]? = some ((1 - (sx - ⌊sx⌋)) * (1 - (sy - ⌊sy⌋))) ∧
      T.remapCoef[i * 4 + 1]? = some ((sx - ⌊sx⌋) * (1 - (sy - ⌊sy⌋))) ∧
      T.remapCoef[i * 4 + 2]? = some ((1 - (sx - ⌊sx⌋)) * (sy - ⌊sy⌋)) ∧
      T.remapCoef[i * 4 + 3]? = some ((sx - ⌊sx⌋) * (sy - ⌊sy⌋)) := by
  have hTb := hasTables_built hv hT
  subst hTb
  rw [built_remapX _ _ i hi] at hsx
  rw [built_remapY _ _ i hi] at hsy
  have ex : entX s.camera_in s.camera_out i = sx := Option.some.inj hsx
  have ey : entY s.camera_in s.camera_out i = sy := Option.some.inj hsy
  have ho : ¬ outside s.camera_in
      (srcPoint s.camera_in s.camera_out (i % s.camera_out.width) (i / s.camera_out.width)) :=
    not_outside_of_pixX_ne (by rw [← entX, ex]; exact hvalid)
  obtain ⟨q1, q2, _, _⟩ := inside_bounds ho
  simp only [entX, pixX, if_neg ho] at ex
  simp only [entY, pixY, if_neg ho] at ey
  have p1 : 0 ≤ sx := by rw [← ex]; exact toFloat_nonneg q1
  have p2 : 0 ≤ sy := by rw [← ey]; exact toFloat_nonneg q2
  have fx : 0 ≤ ⌊sx⌋ := Int.floor_nonneg.mpr p1
  have fy : 0 ≤ ⌊sy⌋ := Int.floor_nonneg.mpr p2
  have hw : (0 : Int) ≤ s.camera_in.width := Int.natCast_nonneg _
  have hrow : (⌊sy⌋ + 1) * (s.camera_in.width : Int) =
      ⌊sy⌋ * (s.camera_in.width : Int) + s.camera_in.width := by ring
  have hprod : 0 ≤ ⌊sy⌋ * (s.camera_in.width : Int) := mul_nonneg fy hw
  have t0 : toInt32 (⌊sy⌋ * s.camera_in.width + ⌊sx⌋) = ⌊sy⌋ * s.camera_in.width + ⌊sx⌋ :=
    toInt32_of_fits (by norm_num; omega) (by norm_num at hfit ⊢; omega)
  have t1 : toInt32 (⌊sy⌋ * s.camera_in.width + ⌊sx⌋ + 1) =
      ⌊sy⌋ * s.camera_in.width + ⌊sx⌋ + 1 :=
    toInt32_of_fits (by norm_num; omega) (by norm_num at hfit ⊢; omega)
  have t2 : toInt32 ((⌊sy⌋ + 1) * s.camera_in.width + ⌊sx⌋) =
      (⌊sy⌋ + 1) * s.camera_in.width + ⌊sx⌋ :=
    toInt32_of_fits (by norm_num; omega) (by norm_num at hfit ⊢; omega)
  have t3 : toInt32 ((⌊sy⌋ + 1) * s.camera_in.width + ⌊sx⌋ + 1) =
      (⌊sy⌋ + 1) * s.camera_in.width + ⌊sx⌋ + 1 :=
    toInt32_of_fits (by norm_num; omega) (by norm_num at hfit ⊢; omega)
  rw [built_remapIdx _ _ i 0 hi (by omega), built_remapIdx _ _ i 1 hi (by omega),
    built_remapIdx _ _ i 2 hi (by omega), built_remapIdx _ _ i 3 hi (by omega),
    built_remapCoef _ _ i 0 hi (by omega), built_remapCoef _ _ i 1 hi (by omega),
    built_remapCoef _ _ i 2 hi (by omega), built_remapCoef _ _ i 3 hi (by omega)]
  simp only [pixIdx, pixCoef, if_neg ho, ex, ey, castInt_of_nonneg p1, castInt_of_nonneg p2,
    t0, t1, t2, t3]
  refine ⟨?_, ?_, ?_, ?_, ?_, ?_, ?_, ?_⟩ <;>
    first
    | trivial
    | (rw [Option.some.injEq]; ring)

/-- C14 (as amended), on output pixel 1 of the half-pixel-shifted table: `sx = 3/2`, `sy = 0`,
so the neighbours are `1, 2, 4, 5` and the weights `1/2, 1/2, 0, 0`. -/
theorem bilinear_slots_witness :
    (builtTables halfShiftHandle.camera_in halfShiftHandle.camera_out).remapIdx[1 * 4 + 0]? =
        some (⌊(0 : ℚ)⌋ * halfShiftHandle.camera_in.width + ⌊(3 / 2 : ℚ)⌋) ∧
      (builtTables halfShiftHandle.camera_in halfShiftHandle.camera_out).remapIdx[1 * 4 + 1]? =
        some (⌊(0 : ℚ)⌋ * halfShiftHandle.camera_in.width + ⌊(3 / 2 : ℚ)⌋ + 1) ∧
      (builtTables halfShiftHandle.camera_in halfShiftHandle.camera_out).remapIdx[1 * 4 + 2]? =
        some ((⌊(0 : ℚ)⌋ + 1) * halfShiftHandle.camera_in.width + ⌊(3 / 2 : ℚ)⌋) ∧
      (builtTables halfShiftHandle.camera_in halfShiftHandle.camera_out).remapIdx[1 * 4 + 3]? =
        some ((⌊(0 : ℚ)⌋ + 1) * halfShiftHandle.camera_in.width + ⌊(3 / 2 : ℚ)⌋ + 1) ∧
      (builtTables halfShiftHandle.camera_in halfShiftHandle.camera_out).remapCoef[1 * 4 + 0]? =
        some ((1 - ((3 / 2 : ℚ) - ⌊(3 / 2 : ℚ)⌋)) * (1 - ((0 : ℚ) - ⌊(0 : ℚ)⌋))) ∧
      (builtTables halfShiftHandle.camera_in halfShiftHandle.camera_out).remapCoef[1 * 4 + 1]? =
        some (((3 / 2 : ℚ) - ⌊(3 / 2 : ℚ)⌋) * (1 - ((0 : ℚ) - ⌊(0 : ℚ)⌋))) ∧
      (builtTables halfShiftHandle.camera_in halfShiftHandle.camera_out).remapCoef[1 * 4 + 2]? =
        some ((1 - ((3 / 2 : ℚ) - ⌊(3 / 2 : ℚ)⌋)) * ((0 : ℚ) - ⌊(0 : ℚ)⌋)) ∧
      (builtTables halfShiftHandle.camera_in halfShiftHandle.camera_out).remapCoef[1 * 4 + 3]? =
        some (((3 / 2 : ℚ) - ⌊(3 / 2 : ℚ)⌋) * ((0 : ℚ) - ⌊(0 : ℚ)⌋)) :=
  bilinear_slots halfShiftHandle junkInit (by decide!) 1 (by decide!)
    (builtTables halfShiftHandle.camera_in halfShiftHandle.camera_out)
    (prepareReMap_hasTables halfShiftHandle junkInit (by decide!)) (3 / 2) 0 (by decide!)
    (by decide!) (by decide!) (by decide!)

/-- C14 (counterexample to the claim as stated): the only output pixel maps to `(0, 1)` of a
`2^30 × 4` input, so `xi = 0`, `yi = 1` and the neighbour `(xi, yi+1)` has the flattened index
`(yi+1)*inW + xi = 2^31`; slot 2 of `remapIdx` holds `-2^31` and slot 3 holds `-2^31 + 1`. -/
theorem neighbour_index_wraps :
    wideRowHandle.valid = true ∧ wideRowHandle.remapX = some [0] ∧
      wideRowHandle.remapY = some [1] ∧
      ((⌊(1 : ℚ)⌋ + 1) * (wideRowHandle.camera_in.width : Int) + ⌊(0 : ℚ)⌋ = 2147483648) ∧
      wideRowHandle.remapIdx = some [1073741824, 1073741825, -2147483648, -2147483647] := by
  decide!

/-- C16 (code at the failing input): output pixel 0 is outside the input and is skipped, so all
writes come from output pixel 1. With four channels they land on elements `3, 4, 5, 6`
(`p_out[i * 3 + j]`): element 3 belongs to pixel 0 and element 7 of pixel 1 stays unwritten.
With two channels the second write goes to element 4 of a 4-element buffer. -/
theorem undistort_writes_foreign_slot :
    secondPixelHandle.remapX = some [-1, 1 / 2] ∧
      secondPixelHandle.remapIdx = some [0, 0, 0, 0, 0, 1, 3, 4] ∧
      secondPixelHandle.remapCoef = some [0, 0, 0, 0, 1 / 2, 1 / 2, 0, 0] ∧
      undistort secondPixelHandle
          ⟨2, 3, 4, 4, [0, 10, 20, 30, 40, 50, 60, 70, 80, 90, 100, 110, 120, 130, 140, 150,
            160, 170, 180, 190, 200, 210, 220, 230]⟩ =
        .ok (true, ⟨1, 2, 4, 4, [0, 0, 0, 20, 30, 40, 50, 0]⟩) ∧
      undistort secondPixelHandle
          ⟨2, 3, 2, 2, [0, 10, 20, 30, 40, 50, 60, 70, 80, 90, 100, 110]⟩ =
        .error (.outputWrite 4) := by
  decide!

/-- The state `prepareReMap` leaves behind satisfies the handle invariant, whatever the state
before. -/
theorem prepareReMap_invariant (s : UndistorterImpl) (u : Uninit) :
    (prepareReMap s u).2.valid =
        ((prepareReMap s u).2.camera_in.isValid && (prepareReMap s u).2.camera_out.isValid) ∧
      ((prepareReMap s u).2.valid = true →
        ∃ T, HasTables (prepareReMap s u).2 T ∧
          T.remapX.length =
            (prepareReMap s u).2.camera_out.width * (prepareReMap s u).2.camera_out.height ∧
          T.remapY.length =
            (prepareReMap s u).2.camera_out.width * (prepareReMap s u).2.camera_out.height ∧
          T.remapFast.length =
            (prepareReMap s u).2.camera_out.width * (prepareReMap s u).2.camera_out.height ∧
          T.remapIdx.length =
            4 * ((prepareReMap s u).2.camera_out.width *
              (prepareReMap s u).2.camera_out.height) ∧
          T.remapCoef.length =
            4 * ((prepareReMap s u).2.camera_out.width *
              (prepareReMap s u).2.camera_out.height)) := by
  cases hv : (s.camera_in.isValid && s.camera_out.isValid)
  · rw [prepareReMap_fail s u hv]
    refine ⟨?_, fun h => by cases h⟩
    exact hv.symm
  · have h1 : (prepareReMap s u).1 = true := by rw [prepareReMap_fst]; exact hv
    have hT := prepareReMap_hasTables s u h1
    obtain ⟨l1, l2, l3, l4, l5⟩ := built_lengths s.camera_in s.camera_out
    rw [prepareReMap_ok s u hv] at hT ⊢
    exact ⟨hv.symm, fun _ => ⟨_, hT, l1, l2, l3, l4, l5⟩⟩

/-- C17: in every state reachable from the constructor by `prepareReMap`, `undistortFast` and
`undistort` calls, the valid flag equals `camera_in.isValid() && camera_out.isValid()`, and
when it is true the handle holds `remapX`, `remapY`, `remapFast` of length `outW * outH` and
`remapIdx`, `remapCoef` of length `4 * outW * outH`. -/
theorem reachable_invariant (s : UndistorterImpl) (h : Reachable s) :
    s.valid = (s.camera_in.isValid && s.camera_out.isValid) ∧
      (s.valid = true →
        ∃ T, HasTables s T ∧
          T.remapX.length = s.camera_out.width * s.camera_out.height ∧
          T.remapY.length = s.camera_out.width * s.camera_out.height ∧
          T.remapFast.length = s.camera_out.width * s.camera_out.height ∧
          T.remapIdx.length = 4 * (s.camera_out.width * s.camera_out.height) ∧
          T.remapCoef.length = 4 * (s.camera_out.width * s.camera_out.height)) := by
  induction h with
  | construct cin cout u => exact prepareReMap_invariant _ u
  | rebuild u _ _ => exact prepareReMap_invariant _ u
  | fast _ hstep ih => rw [undistortFastStep_state hstep]; exact ih
  | accurate _ hstep ih => rw [undistortStep_state hstep]; exact ih

/-- C17, on a handle constructed on identical 2 × 2 cameras and then rebuilt. -/
theorem reachable_invariant_witness :
    rebuiltHandle.valid =
        (rebuiltHandle.camera_in.isValid && rebuiltHandle.camera_out.isValid) ∧
      (rebuiltHandle.valid = true →
        ∃ T, HasTables rebuiltHandle T ∧
          T.remapX.length = rebuiltHandle.camera_out.width * rebuiltHandle.camera_out.height ∧
          T.remapY.length = rebuiltHandle.camera_out.width * rebuiltHandle.camera_out.height ∧
          T.remapFast.length =
            rebuiltHandle.camera_out.width * rebuiltHandle.camera_out.height ∧
          T.remapIdx.length =
            4 * (rebuiltHandle.camera_out.width * rebuiltHandle.camera_out.height) ∧
          T.remapCoef.length =
            4 * (rebuiltHandle.camera_out.width * rebuiltHandle.camera_out.height)) :=
  reachable_invariant rebuiltHandle
    (Reachable.rebuild junkInit (Reachable.construct (idCam 2 2) (idCam 2 2) zeroInit))

/-- C18 (as amended): in a table built for an input camera whose pixel count fits the 32-bit
`int` (`inW * inH ≤ 2^31`), the fast index of every valid output pixel lies in
`[0, inW * inH)`, so reading that pixel of an input image of the configured size is in
bounds. -/
theorem fastIndex_in_bounds (s : UndistorterImpl) (u : Uninit)
    (hv : (prepareReMap s u).1 = true)
    (hfit : s.camera_in.width * s.camera_in.height ≤ 2 ^ 31) (i : Nat)
    (hi : i < s.camera_out.width * s.camera_out.height) (T : Tables)
    (hT : HasTables (prepareReMap s u).2 T) (hvalid : T.remapX[i]? ≠ some (-1)) :
    ∃ f : Int, T.remapFast[i]? = some f ∧ 0 ≤ f ∧
      f < (s.camera_in.width : Int) * s.camera_in.height ∧
      ∀ image : GImage, image.rows = s.camera_in.height → image.cols = s.camera_in.width →
        image.wellFormed → ∃ px, readBlock image.elemSize image.data f = .ok px := by
  have hTb := hasTables_built hv hT
  subst hTb
  rw [built_remapX _ _ i hi] at hvalid
  have ho : ¬ outside s.camera_in
      (srcPoint s.camera_in s.camera_out (i % s.camera_out.width) (i / s.camera_out.width)) :=
    not_outside_of_pixX_ne (fun h => hvalid (by rw [entX, h]))
  obtain ⟨b1, b2⟩ := flatIndex_bounds ho
  rw [fastIndex_exact ho hfit] at b1 b2
  refine ⟨_, built_remapFast _ _ i hi, b1, b2, ?_⟩
  intro image hr hc hwf
  have hlen : image.data.length = s.camera_in.height * s.camera_in.width * image.elemSize := by
    rw [hwf.1, hr, hc]
  have hf : (entFast s.camera_in s.camera_out i).toNat + 1 ≤
      s.camera_in.height * s.camera_in.width := by
    have e : entFast s.camera_in s.camera_out i =
        pixFast s.camera_in s.camera_out (i % s.camera_out.width) (i / s.camera_out.width) := rfl
    have hcast : ((s.camera_in.height * s.camera_in.width : Nat) : Int) =
        (s.camera_in.width : Int) * s.camera_in.height := by push_cast; ring
    rw [e]
    omega
  have hb : 0 ≤ entFast s.camera_in s.camera_out i ∧
      ((entFast s.camera_in s.camera_out i).toNat + 1) * image.elemSize ≤
        image.data.length := by
    refine ⟨b1, ?_⟩
    rw [hlen]
    exact Nat.mul_le_mul_right _ hf
  exact ⟨_, by rw [readBlock, if_pos hb]⟩

/-- C18 (as amended), on output pixel 1 of the half-pixel-shifted table and a 2 × 3 image. -/
theorem fastIndex_in_bounds_witness :
    ∃ f : Int,
      (builtTables halfShiftHandle.camera_in halfShiftHandle.camera_out).remapFast[1]? =
        some f ∧ 0 ≤ f ∧
      f < (halfShiftHandle.camera_in.width : Int) * halfShiftHandle.camera_in.height ∧
      ∀ image : GImage, image.rows = halfShiftHandle.camera_in.height →
        image.cols = halfShiftHandle.camera_in.width →
        image.wellFormed → ∃ px, readBlock image.elemSize image.data f = .ok px :=
  fastIndex_in_bounds halfShiftHandle junkInit (by decide!) (by decide!) 1 (by decide!)
    (builtTables halfShiftHandle.camera_in halfShiftHandle.camera_out)
    (prepareReMap_hasTables halfShiftHandle junkInit (by decide!)) (by decide!)

/-- C18 (counterexample to the claim as stated): both cameras are valid, `inW = 2^30 > 0`,
`inH = 4 > 0`, the only output pixel maps to `(0, 2)` and is valid (`remapX = 0`), yet its
fast index is `-2^31`, below 0: `0 + inW * 2 = 2^31` does not fit the 32-bit `int`. -/
theorem fast_index_wraps :
    wideHandle.valid = true ∧ 0 < wideHandle.camera_in.width ∧
      0 < wideHandle.camera_in.height ∧
      srcPoint wideHandle.camera_in wideHandle.camera_out 0 0 = ⟨0, 2⟩ ∧
      wideHandle.remapX = some [0] ∧ wideHandle.remapFast = some [-2147483648] := by
  decide!

/-- C19 (as amended): in a table built for an input camera with `inW * inH ≤ 2^31`, an output
pixel `i` whose stored coordinates `sx = remapX[i]`, `sy = remapY[i]` (the source point rounded
to `float`) satisfy `0 ≤ sx < inW - 1` and `0 ≤ sy < inH - 1` has as neighbours the four input
pixels `(xi, yi)`, `(xi+1, yi)`, `(xi, yi+1)`, `(xi+1, yi+1)` of the 2 × 2 block around
`(sx, sy)`: the block lies inside the image (`xi + 1 < inW`, `yi + 1 < inH`, no wrap to
another row), the four flattened indices are increasing, hence distinct, and all lie in
`[0, inW * inH)`. -/
theorem neighbours_interior (s : UndistorterImpl) (u : Uninit)
    (hv : (prepareReMap s u).1 = true)
    (hfit : s.camera_in.width * s.camera_in.height ≤ 2 ^ 31) (i : Nat)
    (hi : i < s.camera_out.width * s.camera_out.height) (T : Tables)
    (hT : HasTables (prepareReMap s u).2 T) (sx sy : ℚ) (hsx : T.remapX[i]? = some sx)
    (hsy : T.remapY[i]? = some sy)
    (hbx : 0 ≤ sx ∧ sx < (s.camera_in.width : ℚ) - 1)
    (hby : 0 ≤ sy ∧ sy < (s.camera_in.height : ℚ) - 1) :
    ∃ xi yi : Nat, (xi : ℚ) ≤ sx ∧ sx < xi + 1 ∧ (yi : ℚ) ≤ sy ∧ sy < yi + 1 ∧
      xi + 1 < s.camera_in.width ∧ yi + 1 < s.camera_in.height ∧
      T.remapIdx[i * 4 + 0]? = some ((yi * s.camera_in.width + xi : Nat) : Int) ∧
      T.remapIdx[i * 4 + 1]? = some ((yi * s.camera_in.width + (xi + 1) : Nat) : Int) ∧
      T.remapIdx[i * 4 + 2]? = some (((yi + 1) * s.camera_in.width + xi : Nat) : Int) ∧
      T.remapIdx[i * 4 + 3]? = some (((yi + 1) * s.camera_in.width + (xi + 1) : Nat) : Int) ∧
      yi * s.camera_in.width + xi < yi * s.camera_in.width + (xi + 1) ∧
      yi * s.camera_in.width + (xi + 1) < (yi + 1) * s.camera_in.width + xi ∧
      (yi + 1) * s.camera_in.width + xi < (yi + 1) * s.camera_in.width + (xi + 1) ∧
      (yi + 1) * s.camera_in.width + (xi + 1) < s.camera_in.width * s.camera_in.height := by
  have hTb := hasTables_built hv hT
  subst hTb
  rw [built_remapX _ _ i hi] at hsx
  rw [built_remapY _ _ i hi] at hsy
  have ex : entX s.camera_in s.camera_out i = sx := Option.some.inj hsx
  have ey : entY s.camera_in s.camera_out i = sy := Option.some.inj hsy
  have hne : sx ≠ -1 := by
    intro h; rw [h] at hbx; norm_num at hbx
  have ho : ¬ outside s.camera_in
      (srcPoint s.camera_in s.camera_out (i % s.camera_out.width) (i / s.camera_out.width)) :=
    not_outside_of_pixX_ne (by rw [← entX, ex]; exact hne)
  simp only [entX, pixX, if_neg ho] at ex
  simp only [entY, pixY, if_neg ho] at ey
  have fx0 : 0 ≤ ⌊sx⌋ := Int.floor_nonneg.mpr hbx.1
  have fy0 : 0 ≤ ⌊sy⌋ := Int.floor_nonneg.mpr hby.1
  have fx1 : ⌊sx⌋ < (s.camera_in.width : Int) - 1 := by
    rw [Int.floor_lt]; push_cast; exact hbx.2
  have fy1 : ⌊sy⌋ < (s.camera_in.height : Int) - 1 := by
    rw [Int.floor_lt]; push_cast; exact hby.2
  obtain ⟨xi, hxi⟩ := Int.eq_ofNat_of_zero_le fx0
  obtain ⟨yi, hyi⟩ := Int.eq_ofNat_of_zero_le fy0
  have hxw : xi + 1 < s.camera_in.width := by omega
  have hyh : yi + 1 < s.camera_in.height := by omega
  have hlast : (yi + 1) * s.camera_in.width + (xi + 1) <
      s.camera_in.width * s.camera_in.height := by
    have h1 : (yi + 2) * s.camera_in.width ≤ s.camera_in.height * s.camera_in.width :=
      Nat.mul_le_mul_right _ (by omega)
    have h2 : (yi + 2) * s.camera_in.width = (yi + 1) * s.camera_in.width + s.camera_in.width := by
      ring
    have h3 : s.camera_in.height * s.camera_in.width = s.camera_in.width * s.camera_in.height :=
      Nat.mul_comm _ _
    omega
  have hrow : (yi + 1) * s.camera_in.width = yi * s.camera_in.width + s.camera_in.width := by
    ring
  have ex1 : ((xi : Int) : ℚ) ≤ sx := by rw [← hxi]; exact Int.floor_le _
  have ex2 : sx < ((xi : Int) : ℚ) + 1 := by rw [← hxi]; exact Int.lt_floor_add_one _
  have ey1 : ((yi : Int) : ℚ) ≤ sy := by rw [← hyi]; exact Int.floor_le _
  have ey2 : sy < ((yi : Int) : ℚ) + 1 := by rw [← hyi]; exact Int.lt_floor_add_one _
  simp only [Int.cast_natCast] at ex1 ex2 ey1 ey2
  have wrap : ∀ n : Nat, n ≤ (yi + 1) * s.camera_in.width + (xi + 1) →
      toInt32 (n : Int) = (n : Int) := by
    intro n hn
    have hn2 : n < 2 ^ 31 := by omega
    exact toInt32_of_fits (by norm_num; omega) (by exact_mod_cast hn2)
  have c0 : (yi : Int) * (s.camera_in.width : Int) + (xi : Int) =
      ((yi * s.camera_in.width + xi : Nat) : Int) := by push_cast; ring
  have c1 : (yi : Int) * (s.camera_in.width : Int) + (xi : Int) + 1 =
      ((yi * s.camera_in.width + (xi + 1) : Nat) : Int) := by push_cast; ring
  have c2 : ((yi : Int) + 1) * (s.camera_in.width : Int) + (xi : Int) =
      (((yi + 1) * s.camera_in.width + xi : Nat) : Int) := by push_cast; ring
  have c3 : ((yi : Int) + 1) * (s.camera_in.width : Int) + (xi : Int) + 1 =
      (((yi + 1) * s.camera_in.width + (xi + 1) : Nat) : Int) := by push_cast; ring
  refine ⟨xi, yi, ex1, ex2, ey1, ey2, hxw, hyh, ?_, ?_, ?_, ?_, by omega, by omega, by omega,
    hlast⟩
  · rw [built_remapIdx _ _ i 0 hi (by omega)]
    simp only [pixIdx, if_neg ho, ex, ey, castInt_of_nonneg hbx.1, castInt_of_nonneg hby.1,
      hxi, hyi]
    rw [c0, wrap _ (by omega)]
  · rw [built_remapIdx _ _ i 1 hi (by omega)]
    simp only [pixIdx, if_neg ho, ex, ey, castInt_of_nonneg hbx.1, castInt_of_nonneg hby.1,
      hxi, hyi]
    rw [c1, wrap _ (by omega)]
  · rw [built_remapIdx _ _ i 2 hi (by omega)]
    simp only [pixIdx, if_neg ho, ex, ey, castInt_of_nonneg hbx.1, castInt_of_nonneg hby.1,
      hxi, hyi]
    rw [c2, wrap _ (by omega)]
  · rw [built_remapIdx _ _ i 3 hi (by omega)]
    simp only [pixIdx, if_neg ho, ex, ey, castInt_of_nonneg hbx.1, castInt_of_nonneg hby.1,
      hxi, hyi]
    rw [c3, wrap _ (by omega)]

/-- C19 (as amended), on output pixel 0 of the half-pixel-shifted table: its stored
coordinates `(1/2, 0)` are interior to the 3 × 2 input. -/
theorem neighbours_interior_witness :
    ∃ xi yi : Nat, (xi : ℚ) ≤ (1 / 2 : ℚ) ∧ (1 / 2 : ℚ) < xi + 1 ∧ (yi : ℚ) ≤ (0 : ℚ) ∧
      (0 : ℚ) < yi + 1 ∧
      xi + 1 < halfShiftHandle.camera_in.width ∧ yi + 1 < halfShiftHandle.camera_in.height ∧
      (builtTables halfShiftHandle.camera_in halfShiftHandle.camera_out).remapIdx[0 * 4 + 0]? =
        some ((yi * halfShiftHandle.camera_in.width + xi : Nat) : Int) ∧
      (builtTables halfShiftHandle.camera_in halfShiftHandle.camera_out).remapIdx[0 * 4 + 1]? =
        some ((yi * halfShiftHandle.camera_in.width + (xi + 1) : Nat) : Int) ∧
      (builtTables halfShiftHandle.camera_in halfShiftHandle.camera_out).remapIdx[0 * 4 + 2]? =
        some (((yi + 1) * halfShiftHandle.camera_in.width + xi : Nat) : Int) ∧
      (builtTables halfShiftHandle.camera_in halfShiftHandle.camera_out).remapIdx[0 * 4 + 3]? =
        some (((yi + 1) * halfShiftHandle.camera_in.width + (xi + 1) : Nat) : Int) ∧
      yi * halfShiftHandle.camera_in.width + xi <
        yi * halfShiftHandle.camera_in.width + (xi + 1) ∧
      yi * halfShiftHandle.camera_in.width + (xi + 1) <
        (yi + 1) * halfShiftHandle.camera_in.width + xi ∧
      (yi + 1) * halfShiftHandle.camera_in.width + xi <
        (yi + 1) * halfShiftHandle.camera_in.width + (xi + 1) ∧
      (yi + 1) * halfShiftHandle.camera_in.width + (xi + 1) <
        halfShiftHandle.camera_in.width * halfShiftHandle.camera_in.height :=
  neighbours_interior halfShiftHandle junkInit (by decide!) (by decide!) 0 (by decide!)
    (builtTables halfShiftHandle.camera_in halfShiftHandle.camera_out)
    (prepareReMap_hasTables halfShiftHandle junkInit (by decide!)) (1 / 2) 0 (by decide!)
    (by decide!) ⟨by decide!, by decide!⟩ ⟨by decide!, by decide!⟩

/-- C19 (counterexample to the claim as stated): the source point `(2 - 2^-30, 0)` satisfies
`0 ≤ p.x < inW - 1 = 2` and `0 ≤ p.y < inH - 1 = 1`, but it is stored as the `float` `2`, so
the neighbours are `2, 3, 5, 6`: index 3 is the first pixel of the next row and index 6 is
outside `[0, inW * inH) = [0, 6)`. -/
theorem rounded_point_leaves_block :
    nearEdgeHandle.valid = true ∧
      srcPoint nearEdgeHandle.camera_in nearEdgeHandle.camera_out 0 0 =
        ⟨2147483647 / 1073741824, 0⟩ ∧
      (2147483647 / 1073741824 : ℚ) < (nearEdgeHandle.camera_in.width : ℚ) - 1 ∧
      (0 : ℚ) < (nearEdgeHandle.camera_in.height : ℚ) - 1 ∧
      nearEdgeHandle.camera_in.width * nearEdgeHandle.camera_in.height = 6 ∧
      nearEdgeHandle.remapX = some [2] ∧ nearEdgeHandle.remapIdx = some [2, 3, 5, 6] := by
  decide!

/-- The fractional part of a non-negative stored coordinate. -/
theorem fract_bounds {q : ℚ} (h : 0 ≤ q) : 0 ≤ q - castInt q ∧ q - castInt q < 1 := by
  rw [castInt_of_nonneg h]
  have a1 := Int.floor_le q
  have a2 := Int.lt_floor_add_one q
  exact ⟨by linarith, by linarith⟩

/-- The four weights of a pixel inside the image lie in `[0, 1]`. -/
theorem pixCoef_unit {cin cout : Camera} {x y : Nat}
    (h : ¬ outside cin (srcPoint cin cout x y)) (k : Nat) :
    0 ≤ pixCoef cin cout x y k ∧ pixCoef cin cout x y k ≤ 1 := by
  obtain ⟨h1, h2, _, _⟩ := inside_bounds h
  obtain ⟨a1, a2⟩ := fract_bounds (toFloat_nonneg h1)
  obtain ⟨a3, a4⟩ := fract_bounds (toFloat_nonneg h2)
  simp only [pixCoef, if_neg h]
  generalize toFloat (srcPoint cin cout x y).x -
    ↑(castInt (toFloat (srcPoint cin cout x y).x)) = dx at a1 a2
  generalize toFloat (srcPoint cin cout x y).y -
    ↑(castInt (toFloat (srcPoint cin cout x y).y)) = dy at a3 a4
  have p0 := mul_nonneg a1 a3
  have p1 := mul_nonneg a1 (sub_nonneg.mpr a4.le)
  have p2 := mul_nonneg (sub_nonneg.mpr a2.le) a3
  have p3 := mul_nonneg (sub_nonneg.mpr a2.le) (sub_nonneg.mpr a4.le)
  rcases k with _ | _ | _ | k
  · show 0 ≤ 1 - dx - dy + dx * dy ∧ 1 - dx - dy + dx * dy ≤ 1
    constructor <;> nlinarith
  · show 0 ≤ dx - dx * dy ∧ dx - dx * dy ≤ 1
    constructor <;> nlinarith
  · show 0 ≤ dy - dx * dy ∧ dy - dx * dy ≤ 1
    constructor <;> nlinarith
  · show 0 ≤ dx * dy ∧ dx * dy ≤ 1
    constructor <;> nlinarith

/-- A convex combination of four 8-bit values lies between the smallest and the largest of
them and converts to `uchar` without wrapping. -/
theorem convex_truncates {c0 c1 c2 c3 : ℚ} (h0 : 0 ≤ c0) (h1 : 0 ≤ c1) (h2 : 0 ≤ c2)
    (h3 : 0 ≤ c3) (hsum : c0 + c1 + c2 + c3 = 1) (v0 v1 v2 v3 : Nat) (hv0 : v0 < 256)
    (hv1 : v1 < 256) (hv2 : v2 < 256) (hv3 : v3 < 256) :
    ((min v0 (min v1 (min v2 v3)) : Nat) : ℚ) ≤ v0 * c0 + v1 * c1 + v2 * c2 + v3 * c3 ∧
      (v0 : ℚ) * c0 + v1 * c1 + v2 * c2 + v3 * c3 ≤ (max v0 (max v1 (max v2 v3)) : Nat) ∧
      ∃ b, castUchar (v0 * c0 + v1 * c1 + v2 * c2 + v3 * c3) = some b ∧
        min v0 (min v1 (min v2 v3)) ≤ b ∧ b ≤ max v0 (max v1 (max v2 v3)) ∧ b < 256 := by
  set m := min v0 (min v1 (min v2 v3)) with hm
  set M := max v0 (max v1 (max v2 v3)) with hM
  have m0 : (m : ℚ) ≤ v0 := by exact_mod_cast (by omega : m ≤ v0)
  have m1 : (m : ℚ) ≤ v1 := by exact_mod_cast (by omega : m ≤ v1)
  have m2 : (m : ℚ) ≤ v2 := by exact_mod_cast (by omega : m ≤ v2)
  have m3 : (m : ℚ) ≤ v3 := by exact_mod_cast (by omega : m ≤ v3)
  have M0 : (v0 : ℚ) ≤ M := by exact_mod_cast (by omega : v0 ≤ M)
  have M1 : (v1 : ℚ) ≤ M := by exact_mod_cast (by omega : v1 ≤ M)
  have M2 : (v2 : ℚ) ≤ M := by exact_mod_cast (by omega : v2 ≤ M)
  have M3 : (v3 : ℚ) ≤ M := by exact_mod_cast (by omega : v3 ≤ M)
  have lo : (m : ℚ) ≤ v0 * c0 + v1 * c1 + v2 * c2 + v3 * c3 := by
    have e : (m : ℚ) = m * c0 + m * c1 + m * c2 + m * c3 := by
      rw [← mul_add, ← mul_add, ← mul_add, hsum, mul_one]
    rw [e]
    have := mul_le_mul_of_nonneg_right m0 h0
    have := mul_le_mul_of_nonneg_right m1 h1
    have := mul_le_mul_of_nonneg_right m2 h2
    have := mul_le_mul_of_nonneg_right m3 h3
    linarith
  have hi : (v0 : ℚ) * c0 + v1 * c1 + v2 * c2 + v3 * c3 ≤ M := by
    have e : (M : ℚ) = M * c0 + M * c1 + M * c2 + M * c3 := by
      rw [← mul_add, ← mul_add, ← mul_add, hsum, mul_one]
    rw [e]
    have := mul_le_mul_of_nonneg_right M0 h0
    have := mul_le_mul_of_nonneg_right M1 h1
    have := mul_le_mul_of_nonneg_right M2 h2
    have := mul_le_mul_of_nonneg_right M3 h3
    linarith
  refine ⟨lo, hi, ?_⟩
  have hnn : (0 : ℚ) ≤ v0 * c0 + v1 * c1 + v2 * c2 + v3 * c3 :=
    le_trans (Nat.cast_nonneg m) lo
  have fl : ((m : Int)) ≤ ⌊(v0 : ℚ) * c0 + v1 * c1 + v2 * c2 + v3 * c3⌋ := by
    rw [Int.le_floor]; exact_mod_cast lo
  have fu : ⌊(v0 : ℚ) * c0 + v1 * c1 + v2 * c2 + v3 * c3⌋ ≤ (M : Int) := by
    have h5 : ((⌊(v0 : ℚ) * c0 + v1 * c1 + v2 * c2 + v3 * c3⌋ : Int) : ℚ) ≤ ((M : Int) : ℚ) := by
      have := Int.floor_le ((v0 : ℚ) * c0 + v1 * c1 + v2 * c2 + v3 * c3)
      push_cast
      linarith
    exact_mod_cast h5
  have hM256 : M < 256 := by omega
  have hc : 0 ≤ castInt ((v0 : ℚ) * c0 + v1 * c1 + v2 * c2 + v3 * c3) ∧
      castInt ((v0 : ℚ) * c0 + v1 * c1 + v2 * c2 + v3 * c3) < 256 := by
    rw [castInt_of_nonneg hnn]; omega
  refine ⟨(castInt ((v0 : ℚ) * c0 + v1 * c1 + v2 * c2 + v3 * c3)).toNat, ?_, ?_, ?_, ?_⟩
  · simp only [castUchar, hc, and_self, if_true]
  · rw [castInt_of_nonneg hnn]; omega
  · rw [castInt_of_nonneg hnn]; omega
  · rw [castInt_of_nonneg hnn]; omega

/-- C20: in a built table each of the four weights of a valid output pixel lies in `[0, 1]`;
hence the weighted sum that `undistort` forms from four 8-bit neighbour values lies between
the smallest and the largest of them and is stored in a `uchar` without wrapping. -/
theorem weights_in_unit_interval (s : UndistorterImpl) (u : Uninit)
    (hv : (prepareReMap s u).1 = true) (i : Nat)
    (hi : i < s.camera_out.width * s.camera_out.height) (T : Tables)
    (hT : HasTables (prepareReMap s u).2 T) (hvalid : T.remapX[i]? ≠ some (-1)) :
    ∃ c0 c1 c2 c3 : ℚ, T.remapCoef[i * 4 + 0]? = some c0 ∧ T.remapCoef[i * 4 + 1]? = some c1 ∧
      T.remapCoef[i * 4 + 2]? = some c2 ∧ T.remapCoef[i * 4 + 3]? = some c3 ∧
      (0 ≤ c0 ∧ c0 ≤ 1) ∧ (0 ≤ c1 ∧ c1 ≤ 1) ∧ (0 ≤ c2 ∧ c2 ≤ 1) ∧ (0 ≤ c3 ∧ c3 ≤ 1) ∧
      ∀ v0 v1 v2 v3 : Nat, v0 < 256 → v1 < 256 → v2 < 256 → v3 < 256 →
        ((min v0 (min v1 (min v2 v3)) : Nat) : ℚ) ≤ v0 * c0 + v1 * c1 + v2 * c2 + v3 * c3 ∧
          (v0 : ℚ) * c0 + v1 * c1 + v2 * c2 + v3 * c3 ≤
            (max v0 (max v1 (max v2 v3)) : Nat) ∧
          ∃ b, castUchar (v0 * c0 + v1 * c1 + v2 * c2 + v3 * c3) = some b ∧
            min v0 (min v1 (min v2 v3)) ≤ b ∧ b ≤ max v0 (max v1 (max v2 v3)) ∧ b < 256 := by
  have hTb := hasTables_built hv hT
  subst hTb
  rw [built_remapX _ _ i hi] at hvalid
  have ho : ¬ outside s.camera_in
      (srcPoint s.camera_in s.camera_out (i % s.camera_out.width) (i / s.camera_out.width)) :=
    not_outside_of_pixX_ne (fun h => hvalid (by rw [entX, h]))
  refine ⟨_, _, _, _, built_remapCoef _ _ i 0 hi (by omega),
    built_remapCoef _ _ i 1 hi (by omega), built_remapCoef _ _ i 2 hi (by omega),
    built_remapCoef _ _ i 3 hi (by omega), pixCoef_unit ho 0, pixCoef_unit ho 1,
    pixCoef_unit ho 2, pixCoef_unit ho 3, ?_⟩
  intro v0 v1 v2 v3 h0 h1 h2 h3
  exact convex_truncates (pixCoef_unit ho 0).1 (pixCoef_unit ho 1).1 (pixCoef_unit ho 2).1
    (pixCoef_unit ho 3).1 (pixCoef_sum ho) v0 v1 v2 v3 h0 h1 h2 h3

/-- C20, on output pixel 1 of the half-pixel-shifted table (weights `1/2, 1/2, 0, 0`). -/
theorem weights_in_unit_interval_witness :
    ∃ c0 c1 c2 c3 : ℚ,
      (builtTables halfShiftHandle.camera_in halfShiftHandle.camera_out).remapCoef[1 * 4 + 0]? =
        some c0 ∧
      (builtTables halfShiftHandle.camera_in halfShiftHandle.camera_out).remapCoef[1 * 4 + 1]? =
        some c1 ∧
      (builtTables halfShiftHandle.camera_in halfShiftHandle.camera_out).remapCoef[1 * 4 + 2]? =
        some c2 ∧
      (builtTables halfShiftHandle.camera_in halfShiftHandle.camera_out).remapCoef[1 * 4 + 3]? =
        some c3 ∧
      (0 ≤ c0 ∧ c0 ≤ 1) ∧ (0 ≤ c1 ∧ c1 ≤ 1) ∧ (0 ≤ c2 ∧ c2 ≤ 1) ∧ (0 ≤ c3 ∧ c3 ≤ 1) ∧
      ∀ v0 v1 v2 v3 : Nat, v0 < 256 → v1 < 256 → v2 < 256 → v3 < 256 →
        ((min v0 (min v1 (min v2 v3)) : Nat) : ℚ) ≤ v0 * c0 + v1 * c1 + v2 * c2 + v3 * c3 ∧
          (v0 : ℚ) * c0 + v1 * c1 + v2 * c2 + v3 * c3 ≤
            (max v0 (max v1 (max v2 v3)) : Nat) ∧
          ∃ b, castUchar (v0 * c0 + v1 * c1 + v2 * c2 + v3 * c3) = some b ∧
            min v0 (min v1 (min v2 v3)) ≤ b ∧ b ≤ max v0 (max v1 (max v2 v3)) ∧ b < 256 :=
  weights_in_unit_interval halfShiftHandle junkInit (by decide!) 1 (by decide!)
    (builtTables halfShiftHandle.camera_in halfShiftHandle.camera_out)
    (prepareReMap_hasTables halfShiftHandle junkInit (by decide!)) (by decide!)

end GSLAM
